import Mathlib

/-!
Verification development for the CGR cinéma scraper (`src/index.js`).

The repository holds two variants of the same scraper in one file
(an earlier one and a later one, separated by a document marker); we
embed both.  Suffix `1` refers to the first variant (lines 1–307),
suffix `2` to the second (lines 308–563).

Modelling conventions for the shallow embedding:

* JavaScript strings are Lean `String`s; character-level operations are
  defined on `List Char` (the `data` of a `String`).
* The HTML/DOM querying library (cheerio) is an external collaborator;
  a markup payload is therefore represented by the query results the
  extractors read from it: the list of option elements matched by the
  film selector, the list of `img` elements with their four attributes,
  and the action attribute of the reservation form.  Attributes are
  `Option String` (`none` models an absent attribute, read as
  `undefined` and defaulted with `|| ""` exactly where the source does).
* JavaScript numbers produced by `Number(...)` are modelled by `JSNum`:
  `nan`, signed infinity, or an exact rational value.  IEEE-754 rounding
  is not modelled; the value agrees with JavaScript exactly for integers
  below 2^53, and every theorem that relies on the numeric value carries
  that bound as a hypothesis.  Whether a string parses to `nan` does not
  depend on rounding, so the `nan`/non-`nan` distinction is faithful.
* `fetch` is an external collaborator; a run is modelled against a
  `Stub` assigning a response to each of the four request shapes the
  scraper issues.  Responses of a fixed stub do not depend on the
  request headers, so the (separately modelled) cookie jar cannot
  influence any observable of a stubbed run and is not threaded through
  the run model.
-/

/-- Characters treated as whitespace by JavaScript's `String.prototype.trim`,
by `Number(...)` conversion, and by the regexp class `\s`
(ASCII whitespace, NBSP, BOM and the Unicode space separators). -/
def isJsWs (c : Char) : Bool :=
  let n := c.toNat
  n = 32 || n = 9 || n = 10 || n = 13 || n = 11 || n = 12 ||
  n = 160 || n = 5760 || (8192 <= n && n <= 8202) ||
  n = 8232 || n = 8233 || n = 8239 || n = 8287 || n = 12288 || n = 65279

/-- Model of `String.prototype.trim` on the character list of a string. -/
def trimWs (l : List Char) : List Char :=
  ((l.dropWhile isJsWs).reverse.dropWhile isJsWs).reverse

/-- Model of `String.prototype.trim`. -/
def jsTrim (s : String) : String := String.mk (trimWs s.data)

/-- Model of JavaScript's `a || b` on strings: the empty string is falsy. -/
def jsOr (a b : String) : String := if a = "" then b else a

/-- Character-list worker for `String.prototype.split` with a single-character
separator: leftmost occurrences, keeping empty chunks
(`"a;;b".split(";") = ["a","","b"]`, `"".split(";") = [""]`). -/
def splitChar (sep : Char) : List Char → List (List Char)
  | [] => [[]]
  | c :: rest =>
    if c = sep then [] :: splitChar sep rest
    else
      match splitChar sep rest with
      | [] => [[c]]
      | h :: t => (c :: h) :: t

/-- Character-list worker for `String.prototype.split(" - ")` (the one
multi-character separator the source uses): leftmost, non-overlapping
occurrences of the three-character separator, keeping empty chunks. -/
def splitSpDashSp : List Char → List (List Char)
  | ' ' :: '-' :: ' ' :: rest => [] :: splitSpDashSp rest
  | [] => [[]]
  | c :: rest =>
    match splitSpDashSp rest with
    | [] => [[c]]
    | h :: t => (c :: h) :: t

/-- Model of `String.prototype.split(sep)` for the separators the source
passes to it: the single-character `"/"` and `";"` and the three-character
`" - "`.  Other separators never occur and are not modelled (the input is
returned whole). -/
def jsSplit (sep s : String) : List String :=
  match sep.data with
  | [c] => (splitChar c s.data).map String.mk
  | [' ', '-', ' '] => (splitSpDashSp s.data).map String.mk
  | _ => [s]

/-- Numeric value of a list of decimal digit characters. -/
def natOfDigits (l : List Char) : Nat :=
  l.foldl (fun a c => 10 * a + (c.toNat - '0'.toNat)) 0

/-- A JavaScript number as produced by `Number(...)`: NaN, a signed
infinity, or a finite value (kept exact; see the header note on rounding). -/
inductive JSNum where
  | nan : JSNum
  | inf : Bool → JSNum
  | val : ℚ → JSNum
deriving DecidableEq, Repr

/-- Value of a list of base-`b` digit characters. -/
def radixVal (b : Nat) (digitVal : Char → Nat) (l : List Char) : Nat :=
  l.foldl (fun a c => b * a + digitVal c) 0

def hexDigitVal (c : Char) : Nat :=
  if c.isDigit then c.toNat - '0'.toNat
  else if 'a' ≤ c && c ≤ 'f' then c.toNat - 'a'.toNat + 10
  else if 'A' ≤ c && c ≤ 'F' then c.toNat - 'A'.toNat + 10
  else 0

def isHexDigit (c : Char) : Bool :=
  c.isDigit || ('a' ≤ c && c ≤ 'f') || ('A' ≤ c && c ≤ 'F')

def isOctDigit (c : Char) : Bool := '0' ≤ c && c ≤ '7'

def isBinDigit (c : Char) : Bool := c = '0' || c = '1'

/-- Value of `DecimalDigits [. DecimalDigits]`: integer part `ipn` plus the
fraction digits `fp` (division is only performed when a fraction is present). -/
def decBase (ipn : Nat) (fp : List Char) : ℚ :=
  if fp.isEmpty then (ipn : ℚ)
  else (ipn : ℚ) + (natOfDigits fp : ℚ) / ((10 : ℚ) ^ fp.length)

/-- Split an optional exponent sign: `+` and `-` prefixes, default positive. -/
def splitExpSign (r : List Char) : Bool × List Char :=
  match r with
  | '+' :: r3 => (true, r3)
  | '-' :: r3 => (false, r3)
  | _ => (true, r)

/-- Parse the optional `ExponentPart` that may close a decimal literal; the
whole rest of the input must be consumed. -/
def parseExpPart (q : ℚ) (r : List Char) : Option ℚ :=
  match r with
  | [] => some q
  | e :: r2 =>
    if e = 'e' ∨ e = 'E' then
      let p := splitExpSign r2
      if p.2 ≠ [] ∧ p.2.all Char.isDigit then
        some (if natOfDigits p.2 = 0 then q
              else if p.1 then q * (10 : ℚ) ^ natOfDigits p.2
              else q / (10 : ℚ) ^ natOfDigits p.2)
      else none
    else none

/-- Worker for `parseDecQ` on the integer-digit run `ip` and the rest `r1`. -/
def parseDecQAux (ip r1 : List Char) : Option ℚ :=
  if ip.isEmpty then
    match r1 with
    | '.' :: r2 =>
      let fp := r2.takeWhile Char.isDigit
      let r3 := r2.dropWhile Char.isDigit
      if fp.isEmpty then none else parseExpPart (decBase 0 fp) r3
    | _ => none
  else
    match r1 with
    | '.' :: r2 =>
      let fp := r2.takeWhile Char.isDigit
      let r3 := r2.dropWhile Char.isDigit
      parseExpPart (decBase (natOfDigits ip) fp) r3
    | _ => parseExpPart (decBase (natOfDigits ip) []) r1

/-- Parse an unsigned `StrUnsignedDecimalLiteral` without the `Infinity`
alternative: `Digits [. Digits] [Exp]` or `. Digits [Exp]`. -/
def parseDecQ (l : List Char) : Option ℚ :=
  parseDecQAux (l.takeWhile Char.isDigit) (l.dropWhile Char.isDigit)

/-- Parse a signed body: the `Infinity` literal or a decimal literal. -/
def parseSignedNum (pos : Bool) (l : List Char) : JSNum :=
  if l = ['I', 'n', 'f', 'i', 'n', 'i', 't', 'y'] then JSNum.inf pos
  else
    match parseDecQ l with
    | some q => JSNum.val (if pos then q else -q)
    | none => JSNum.nan

/-- Parse a non-decimal (`0x`/`0o`/`0b`) integer literal body. -/
def parseRadix (b : Nat) (digOk : Char → Bool) (digitVal : Char → Nat)
    (r : List Char) : JSNum :=
  if r ≠ [] ∧ r.all digOk then JSNum.val (radixVal b digitVal r : ℚ) else JSNum.nan

/-- Parse an unsigned `StrNumericLiteral`: a `0x`/`0o`/`0b` integer or a
decimal/`Infinity` body (a sign is only legal on the decimal forms). -/
def parseUnsignedNum (l : List Char) : JSNum :=
  match l with
  | c0 :: c1 :: r =>
    if c0 = '0' ∧ (c1 = 'x' ∨ c1 = 'X') then parseRadix 16 isHexDigit hexDigitVal r
    else if c0 = '0' ∧ (c1 = 'o' ∨ c1 = 'O') then parseRadix 8 isOctDigit (fun c => c.toNat - '0'.toNat) r
    else if c0 = '0' ∧ (c1 = 'b' ∨ c1 = 'B') then parseRadix 2 isBinDigit (fun c => c.toNat - '0'.toNat) r
    else parseSignedNum true l
  | _ => parseSignedNum true l

/-- Model of JavaScript's `Number(string)` conversion (ECMA `StringToNumber`):
surrounding whitespace is stripped, the empty string converts to `0`, and a
string that is not a numeric literal converts to `NaN`. -/
def jsNumber (s : String) : JSNum :=
  match trimWs s.data with
  | [] => JSNum.val 0
  | c :: r =>
    if c = '+' then parseSignedNum true r
    else if c = '-' then parseSignedNum false r
    else parseUnsignedNum (c :: r)

/-- Decoded form of a composite showtime key `<ts>/<version>/<seanceId>`. -/
structure SeanceKey where
  ts : JSNum
  version : String
  seanceId : String
deriving DecidableEq, Repr

/-- `parseSeanceKey` (both variants are textually identical):
`String(key).split("/")`, `Number(parts[0])`, `parts[1] || ""`,
`parts[2] || ""`.  `split` never returns an empty array, so `parts[0]`
always exists; `x || ""` is the identity on present strings and turns a
missing (`undefined`) part into `""`, which `List.getD` captures. -/
def parseSeanceKey (key : String) : SeanceKey :=
  let parts := jsSplit "/" key
  { ts := jsNumber (parts.getD 0 "")
  , version := parts.getD 1 ""
  , seanceId := parts.getD 2 "" }

/-- Decoded form of a showtime label `<time> - <version> - <audio>`. -/
structure SeanceLabel where
  time : String
  version : String
  audio : String
deriving DecidableEq, Repr

/-- `parseSeanceLabel` (both variants are textually identical):
`String(label).split(" - ").map(s => s.trim())` then positional reads
defaulted to `""`. -/
def parseSeanceLabel (label : String) : SeanceLabel :=
  let chunks := (jsSplit " - " label).map jsTrim
  { time := chunks.getD 0 ""
  , version := chunks.getD 1 ""
  , audio := chunks.getD 2 "" }

/-- Case-insensitive prefix test, modelling how the regexp `i` flag compares
the ASCII letters occurring in the source's patterns. -/
def ciStarts : List Char → List Char → Bool
  | [], _ => true
  | _ :: _, [] => false
  | p :: ps, c :: cs => (p.toLower = c.toLower) && ciStarts ps cs

/-- Leftmost-match regexp search: try the position matcher `f` at every
position of the subject, left to right (including the end position). -/
def reSearch (f : List Char → Option (List Char)) : List Char → Option (List Char)
  | [] => f []
  | c :: rest =>
    match f (c :: rest) with
    | some r => some r
    | none => reSearch f rest

/-- Position matcher for `/sal_(\d{1,2})\.png/i`: `sal_`, then one or two
digits (greedy, with backtracking from two digits to one when `.png` does
not follow), then `.png`; returns the captured digits. -/
def salPngAt (l : List Char) : Option (List Char) :=
  if ciStarts ['s', 'a', 'l', '_'] l then
    match l.drop 4 with
    | d1 :: r1 =>
      if d1.isDigit then
        match r1 with
        | d2 :: r2 =>
          if d2.isDigit then
            if ciStarts ['.', 'p', 'n', 'g'] r2 then some [d1, d2]
            else if ciStarts ['.', 'p', 'n', 'g'] r1 then some [d1]
            else none
          else if ciStarts ['.', 'p', 'n', 'g'] r1 then some [d1] else none
        | [] => none
      else none
    | [] => none
  else none

/-- Position matcher for `/tag-SAL(\d{1,2})/i`: `tag-SAL` then one or two
digits (greedy, nothing required after them). -/
def tagSalAt (l : List Char) : Option (List Char) :=
  if ciStarts ['t', 'a', 'g', '-', 's', 'a', 'l'] l then
    match l.drop 7 with
    | d1 :: r1 =>
      if d1.isDigit then
        match r1 with
        | d2 :: _ => if d2.isDigit then some [d1, d2] else some [d1]
        | [] => some [d1]
      else none
    | [] => none
  else none

/-- Position matcher for `/salle\s*(\d{1,2})/i`: `salle`, any run of
whitespace, then one or two digits (greedy). -/
def salleWordAt (l : List Char) : Option (List Char) :=
  if ciStarts ['s', 'a', 'l', 'l', 'e'] l then
    match (l.drop 5).dropWhile isJsWs with
    | d1 :: r1 =>
      if d1.isDigit then
        match r1 with
        | d2 :: _ => if d2.isDigit then some [d1, d2] else some [d1]
        | [] => some [d1]
      else none
    | [] => none
  else none

/-- `src.match(/sal_(\d{1,2})\.png/i)`, reduced to its capture group. -/
def matchSalPng (s : String) : Option (List Char) := reSearch salPngAt s.data

/-- `cls.match(/tag-SAL(\d{1,2})/i)`, reduced to its capture group. -/
def matchTagSal (s : String) : Option (List Char) := reSearch tagSalAt s.data

/-- `(alt or title).match(/salle\s*(\d{1,2})/i)`, reduced to its capture. -/
def matchSalleWord (s : String) : Option (List Char) := reSearch salleWordAt s.data

/-- Case-sensitive prefix test on character lists. -/
def startsWithCh : List Char → List Char → Bool
  | [], _ => true
  | _ :: _, [] => false
  | p :: ps, c :: cs => (p = c) && startsWithCh ps cs

/-- Substring test on character lists. -/
def hasSubstrCh (pat : List Char) : List Char → Bool
  | [] => pat.isEmpty
  | c :: rest => startsWithCh pat (c :: rest) || hasSubstrCh pat rest

/-- Substring test, modelling both `String.prototype.includes` and the CSS
attribute-contains selector `[attr*="..."]` (attribute values compare
case-sensitively). -/
def hasSubstr (pat s : String) : Bool := hasSubstrCh pat.data s.data

/-- An `img` element of the reveal markup, by its four attributes as the
markup-query collaborator reports them (`none` = attribute absent). -/
structure Img where
  src : Option String
  cls : Option String
  alt : Option String
  title : Option String
deriving DecidableEq, Repr

/-- The reveal-page markup, represented by what the two extractors query
from it: the `img` elements in document order, and the `action` attribute
of the `#ffselplace` form when that form exists. -/
structure RevealDoc where
  imgs : List Img
  ffAction : Option String
deriving DecidableEq, Repr

/-- First variant's selector
`img[src*="/img/tags/sal_"], img[class*="tag-SAL"]`. -/
def imgSel1 (i : Img) : Bool :=
  (match i.src with | some s => hasSubstr "/img/tags/sal_" s | none => false) ||
  (match i.cls with | some c => hasSubstr "tag-SAL" c | none => false)

/-- Second variant's selector, which adds
`img[class="tag tag-ICEBYCGR"]` as a third alternative. -/
def imgSel2 (i : Img) : Bool :=
  imgSel1 i || (i.cls = some "tag tag-ICEBYCGR")

/-- `m[1].padStart(2, "0")` for a one-or-two-digit capture. -/
def padStart2 (ds : List Char) : List Char :=
  if ds.length = 1 then '0' :: ds else ds

/-- Room extraction result `{salleNum, salleLabel}`. -/
structure Salle where
  salleNum : String
  salleLabel : String
deriving DecidableEq, Repr

/-- The matcher cascade shared by both variants: `src` filename pattern,
then `class` pattern, then `alt`, then `title` (first match wins). -/
def salleMatch (src cls alt title : String) : Option (List Char) :=
  match matchSalPng src with
  | some m => some m
  | none =>
    match matchTagSal cls with
    | some m => some m
    | none =>
      match matchSalleWord alt with
      | some m => some m
      | none => matchSalleWord title

/-- Numeric-room result: `num = m[1].padStart(2, "0")` and
`` `Salle ${parseInt(num, 10)}` ``. -/
def salleOfCapture (m : List Char) : Salle :=
  let num := padStart2 m
  { salleNum := String.mk num
  , salleLabel := "Salle " ++ toString (natOfDigits num) }

/-- `extractSalle` of the first variant (lines 125–153): first image matched
by `imgSel1`; attributes defaulted with `|| ""`; the four-step matcher
cascade; no special-room fallback — an image whose patterns all fail (and
markup with no matching image at all) yields two empty fields. -/
def extractSalle1 (d : RevealDoc) : Salle :=
  match d.imgs.find? imgSel1 with
  | none => { salleNum := "", salleLabel := "" }
  | some img =>
    match salleMatch (img.src.getD "") (img.cls.getD "") (img.alt.getD "") (img.title.getD "") with
    | some m => salleOfCapture m
    | none => { salleNum := "", salleLabel := "" }

/-- `extractSalle` of the second variant (lines 411–438): selector extended
with the fixed ICE class; after the numeric cascade fails, a class equal to
`"tag tag-ICEBYCGR"` yields the special room; otherwise two empty fields. -/
def extractSalle2 (d : RevealDoc) : Salle :=
  match d.imgs.find? imgSel2 with
  | none => { salleNum := "", salleLabel := "" }
  | some img =>
    match salleMatch (img.src.getD "") (img.cls.getD "") (img.alt.getD "") (img.title.getD "") with
    | some m => salleOfCapture m
    | none =>
      if img.cls.getD "" = "tag tag-ICEBYCGR" then
        { salleNum := "ICE", salleLabel := "Salle ICE" }
      else { salleNum := "", salleLabel := "" }

/-- `extractReservationUrl` (second variant): the `action` attribute of the
`#ffselplace` form; a cheerio selection is always truthy, so an absent form
also yields `""` through `form.attr("action") || ""`. -/
def extractReservationUrl (d : RevealDoc) : String := d.ffAction.getD ""

/-- An option element of the film `select`, as the markup-query collaborator
reports it: its `value` attribute (if any) and its text content. -/
structure OptionTag where
  value : Option String
  text : String
deriving DecidableEq, Repr

/-- A film `{id, title}`. -/
structure Film where
  id : String
  title : String
deriving DecidableEq, Repr

/-- `parseFilmsFromHTML` (both variants are textually identical): over the
options matched by `#modresa_film option, select[name=modresa_film] option`,
keep those whose `value` attribute is present, non-empty and non-blank
(`if (id && id.trim() !== "")`), as `{id: value.trim(), title: text.trim()}`. -/
def parseFilmsFromHTML (opts : List OptionTag) : List Film :=
  opts.filterMap fun o =>
    match o.value with
    | none => none
    | some v => if v ≠ "" ∧ jsTrim v ≠ "" then some ⟨jsTrim v, jsTrim o.text⟩ else none

/-- The cookie jar's store `this.cookies = {}`: a name→value map in
insertion order (how a JavaScript object iterates its non-index keys). -/
def Jar := List (String × String)
deriving DecidableEq

/-- `this.cookies[name] = value`: update the existing entry in place, or
append a new one. -/
def jarSet : Jar → String → String → Jar
  | [], n, v => [(n, v)]
  | p :: rest, n, v => if p.1 = n then (n, v) :: rest else p :: jarSet rest n v

/-- Current value held for a name. -/
def jarGet (j : Jar) (n : String) : Option String :=
  match j with
  | [] => none
  | p :: rest => if p.1 = n then some p.2 else jarGet rest n

/-- First `=` of a character list: the part before it and the part after it
(`first.indexOf("=")` together with the two `slice` calls). -/
def splitAtEq : List Char → Option (List Char × List Char)
  | [] => none
  | c :: r =>
    if c = '=' then some ([], r)
    else (splitAtEq r).map fun p => (c :: p.1, p.2)

/-- Processing of one `set-cookie` directive (the loop body of `setFrom`):
take the part before the first `;`, find its first `=` (skip the directive
when there is none), and store the trimmed name/value pair. -/
def setCookieOne (j : Jar) (sc : String) : Jar :=
  match splitAtEq ((jsSplit ";" sc).headD "").data with
  | none => j
  | some p => jarSet j (String.mk (trimWs p.1)) (String.mk (trimWs p.2))

/-- `CookieJar.setFrom` (both variants are textually identical), applied to
the list of `set-cookie` directive strings of a response. -/
def setFrom (j : Jar) (scs : List String) : Jar := scs.foldl setCookieOne j

/-- Join with `"; "` (`Array.prototype.join("; ")`). -/
def joinSemi : List String → String
  | [] => ""
  | [x] => x
  | x :: xs => x ++ "; " ++ joinSemi xs

/-- `CookieJar.header()`: all held pairs as `name=value` joined by `"; "`
(the second variant inlines this into `apply`). -/
def jarHeader (j : Jar) : String :=
  joinSemi (j.map fun p => p.1 ++ "=" ++ p.2)

/-- Outgoing request headers, as a name→value list. -/
def Hdrs := List (String × String)
deriving DecidableEq

/-- `headers.set(k, v)`. -/
def hdrSet : Hdrs → String → String → Hdrs
  | [], k, v => [(k, v)]
  | p :: rest, k, v => if p.1 = k then (k, v) :: rest else p :: hdrSet rest k v

/-- `CookieJar.apply(headers)`: inject the serialized jar as the `Cookie`
header, doing nothing when the serialization is empty (`if (jar) ...`). -/
def applyJar (j : Jar) (h : Hdrs) : Hdrs :=
  if jarHeader j = "" then h else hdrSet h "Cookie" (jarHeader j)

/-- `s.replaceAll('"', '""")` — every quote doubled (`csvEscape` and the
`replace(/"/g, '""')` of `toCsvRow`). -/
def doubleQuotes : List Char → List Char
  | [] => []
  | c :: r => if c = '"' then '"' :: '"' :: doubleQuotes r else c :: doubleQuotes r

/-- `csvEscape` (first variant): quote and double-quote-escape exactly the
fields containing the `;` delimiter, a newline or a quote. -/
def csvEscape (s : String) : String :=
  if s.data.contains ';' || s.data.contains '\n' || s.data.contains '"' then
    String.mk ('"' :: (doubleQuotes s.data ++ ['"']))
  else s

/-- The per-field transform of `toCsvRow` (second variant): every field is
wrapped in quotes with embedded quotes doubled. -/
def csvQuoteField (s : String) : String :=
  String.mk ('"' :: (doubleQuotes s.data ++ ['"']))

/-- `toCsvRow` (second variant): quote-all fields joined by `,`. -/
def toCsvRow (values : List String) : String :=
  String.intercalate "," (values.map csvQuoteField)

/-- Modelled from the spec: the repository contains no CSV reader, so the
"same escaping rule" read-back direction of the spec's round-trip property
is modelled from its words — a field wrapped in double quotes has the
wrapper removed and embedded doubled quotes undoubled; any other field is
returned unchanged. -/
def undoubleQuotes : List Char → List Char
  | [] => []
  | [c] => [c]
  | a :: b :: r =>
    if a = '"' ∧ b = '"' then '"' :: undoubleQuotes r
    else a :: undoubleQuotes (b :: r)

/-- Modelled from the spec (see `undoubleQuotes`): field-level inverse of
the doubled-quote escaping rule. -/
def csvUnescape (s : String) : String :=
  match s.data with
  | '"' :: rest =>
    if rest.getLast? = some '"' then String.mk (undoubleQuotes rest.dropLast) else s
  | _ => s

/-- `const CINEMA_SLUG = "lefrancais"` (the first variant's fixed slug; the
second variant defaults `process.env.CINEMA_SLUG` to the same value and is
modelled with the slug as an explicit parameter). -/
def CINEMA_SLUG : String := "lefrancais"

/-- A result row of the first variant (the object pushed at lines 258–270). -/
structure Row1 where
  cinema : String
  salle : String
  salle_label : String
  film_id : String
  film_titre : String
  date : String
  heure : String
  version : String
  audio : String
  seance_id : String
  ts : JSNum
deriving DecidableEq, Repr

/-- A result row of the second variant (lines 532–545): the same fields
plus `reservation_url`. -/
structure Row2 where
  cinema : String
  salle : String
  salle_label : String
  film_id : String
  film_titre : String
  date : String
  heure : String
  version : String
  audio : String
  seance_id : String
  ts : JSNum
  reservation_url : String
deriving DecidableEq, Repr

/-- Row assembly of the first variant for one showtime: decode the key and
the label, prefer the label's version (`verFromLbl || verFromKey`), extract
the room from the reveal markup, and build the pushed object. -/
def mkRow1 (film : Film) (day key label : String) (doc : RevealDoc) : Row1 :=
  let k := parseSeanceKey key
  let lbl := parseSeanceLabel label
  let s := extractSalle1 doc
  { cinema := CINEMA_SLUG
  , salle := jsOr s.salleNum ""
  , salle_label := jsOr s.salleLabel ""
  , film_id := film.id
  , film_titre := film.title
  , date := day
  , heure := lbl.time
  , version := jsOr lbl.version k.version
  , audio := lbl.audio
  , seance_id := k.seanceId
  , ts := k.ts }

/-- Row assembly of the second variant for one showtime: as `mkRow1` but
with the second variant's extractor, the configured slug, and the
reservation URL. -/
def mkRow2 (slug : String) (film : Film) (day key label : String) (doc : RevealDoc) : Row2 :=
  let k := parseSeanceKey key
  let lbl := parseSeanceLabel label
  let s := extractSalle2 doc
  { cinema := slug
  , salle := jsOr s.salleNum ""
  , salle_label := jsOr s.salleLabel ""
  , film_id := film.id
  , film_titre := film.title
  , date := day
  , heure := lbl.time
  , version := jsOr lbl.version k.version
  , audio := lbl.audio
  , seance_id := k.seanceId
  , ts := k.ts
  , reservation_url := extractReservationUrl doc }

/-- Strict code-unit lexicographic comparison of character lists (an
executable equivalent of `List.lt`; see `listCharLt_iff`). -/
def listCharLt : List Char → List Char → Bool
  | [], [] => false
  | [], _ :: _ => true
  | _ :: _, [] => false
  | a :: as, b :: bs =>
    decide (a.toNat < b.toNat) || (decide (a.toNat = b.toNat) && listCharLt as bs)

/-- Sign model of `String.prototype.localeCompare` as the sort comparator
uses it.  We model the collation as code-unit (lexicographic) comparison:
on the digit/letter strings this program compares (zero-padded room
numbers, `"ICE"`, ISO dates, `HHhMM` times) the default locale collation
and code-unit order agree. -/
def lcCmp (a b : String) : Ordering :=
  if listCharLt a.data b.data then Ordering.lt
  else if listCharLt b.data a.data then Ordering.gt
  else Ordering.eq

/-- The sort comparator of both variants (`salle`, then `date`, then
`heure`; every field compared with `localeCompare` after `|| ""`, which is
the identity on strings). -/
def cmpRow1 (a b : Row1) : Ordering :=
  ((lcCmp a.salle b.salle).then (lcCmp a.date b.date)).then (lcCmp a.heure b.heure)

/-- The sort comparator of the second variant (same keys as `cmpRow1`). -/
def cmpRow2 (a b : Row2) : Ordering :=
  ((lcCmp a.salle b.salle).then (lcCmp a.date b.date)).then (lcCmp a.heure b.heure)

/-- The total preorder induced by the comparator (`cmp(a,b) <= 0`). -/
def rowLE1 (a b : Row1) : Prop := cmpRow1 a b ≠ Ordering.gt

/-- The total preorder induced by the second variant's comparator. -/
def rowLE2 (a b : Row2) : Prop := cmpRow2 a b ≠ Ordering.gt

instance : DecidableRel rowLE1 := fun a b => inferInstanceAs (Decidable (cmpRow1 a b ≠ Ordering.gt))

instance : DecidableRel rowLE2 := fun a b => inferInstanceAs (Decidable (cmpRow2 a b ≠ Ordering.gt))

/-- `results.sort(comparator)` (first variant): ECMAScript requires the
result to be a stable permutation sorted by the comparator; insertion sort
is the reference implementation of that contract. -/
def sortRows1 (l : List Row1) : List Row1 := List.insertionSort rowLE1 l

/-- `results.sort(comparator)` (second variant). -/
def sortRows2 (l : List Row2) : List Row2 := List.insertionSort rowLE2 l

/-- String rendering of a JavaScript number as `String(...)` produces it
for the values this program serializes (`NaN`, infinities and integers;
the shortest-round-trip rendering of non-integral doubles is not modelled
and no claim depends on it). -/
def jsNumToString : JSNum → String
  | JSNum.nan => "NaN"
  | JSNum.inf true => "Infinity"
  | JSNum.inf false => "-Infinity"
  | JSNum.val q =>
    if q.den = 1 then
      if 0 ≤ q.num then toString q.num.toNat else "-" ++ toString (-q.num).toNat
    else toString q

/-- The fixed header list of the first variant (lines 285–297). -/
def csvHeaders1 : List String :=
  ["cinema", "salle", "salle_label", "film_id", "film_titre", "date", "heure",
   "version", "audio", "seance_id", "ts"]

/-- The field values of a `Row1` in header order (`headers.map(h => r[h])`),
numbers rendered by `String(...)` inside `csvEscape`. -/
def row1Fields (r : Row1) : List String :=
  [r.cinema, r.salle, r.salle_label, r.film_id, r.film_titre, r.date, r.heure,
   r.version, r.audio, r.seance_id, jsNumToString r.ts]

/-- `toCSV(rows, headers)` (first variant): `;`-joined header line, then one
`;`-joined `csvEscape`d line per row, joined by newlines. -/
def toCSV1 (rows : List Row1) : String :=
  String.intercalate "\n"
    (String.intercalate ";" csvHeaders1 ::
     rows.map fun r => String.intercalate ";" ((row1Fields r).map csvEscape))

/-- The key insertion order of a second-variant row object
(`Object.keys(rows[0])`). -/
def csvHeaders2 : List String :=
  ["cinema", "salle", "salle_label", "film_id", "film_titre", "date", "heure",
   "version", "audio", "seance_id", "ts", "reservation_url"]

/-- The field values of a `Row2` in key order. -/
def row2Fields (r : Row2) : List String :=
  [r.cinema, r.salle, r.salle_label, r.film_id, r.film_titre, r.date, r.heure,
   r.version, r.audio, r.seance_id, jsNumToString r.ts, r.reservation_url]

/-- `saveCSV(filename, rows)` (second variant): returns without writing when
the row list is empty; otherwise the written content — quote-all rows joined
by newlines under the header row.  `none` models "no file written". -/
def saveCSV (rows : List Row2) : Option String :=
  if rows.isEmpty then none
  else some (String.intercalate "\n"
    (toCsvRow csvHeaders2 :: rows.map fun r => toCsvRow (row2Fields r)))

/-- The observable actions of a run, in program order: the pacing
suspension `sleep(DELAY_MS)` and the four kinds of outbound request. -/
inductive Act where
  | sleep : Act
  | reqSeed : Act
  | reqDays : Act
  | reqSeances : Act
  | reqBook : Act
deriving DecidableEq, Repr, Fintype

/-- Is the action an outbound request (any of the four kinds)? -/
def isReq : Act → Bool
  | Act.sleep => false
  | _ => true

/-- Is the action one of the Days/Showtimes/Reveal requests (the non-Seed
request kinds)? -/
def isNonSeedReq : Act → Bool
  | Act.reqDays => true
  | Act.reqSeances => true
  | Act.reqBook => true
  | _ => false

/-- Adjacency relation of a paced trace: a non-Seed request is only ever
immediately preceded by a delay. -/
def PacedRel (a b : Act) : Prop := isNonSeedReq b = true → a = Act.sleep

/-- A trace segment in which every non-Seed request is immediately preceded
by a delay, and whose first action is not a non-Seed request. -/
def GoodTrace (l : List Act) : Prop :=
  l.Chain' PacedRel ∧ ∀ z, l.head? = some z → isNonSeedReq z = false

/-- The property the claim asserts of a whole trace: every request action
(of any of the four kinds) is immediately preceded by a delay action. -/
def PacedAll (l : List Act) : Prop :=
  ∀ i, i < l.length → isReq (l.getD i Act.sleep) = true →
    0 < i ∧ l.getD (i - 1) Act.sleep = Act.sleep

/-- A stubbed transport: one response per request shape the scraper issues.
`days`/`seances` model the parsed JSON body (`none`: a body that was not a
JSON object, which `|| {}` turns into no keys); objects are given by their
key list in iteration order.  `reveal` maps the film id, the day and the
posted `modresa_seance` value to the reveal markup. -/
structure Stub where
  seedDoc : List OptionTag
  days : String → Option (List String)
  seances : String → String → Option (List (String × String))
  reveal : String → String → String → RevealDoc

/-- The outcome of a run: its action trace, the process exit code, the
final (sorted) row collection, and the written file content (`none`: no
file was written). -/
structure RunOut (ρ : Type) where
  trace : List Act
  exitCode : Nat
  rows : List ρ
  output : Option String
deriving DecidableEq, Repr

/-- First variant, innermost loop body (one showtime): sleep, POST the
booking continuation (`modresa_seance` = the decoded internal id), and
assemble the row from the response markup. -/
def seanceStep1 (st : Stub) (film : Film) (day : String) (kv : String × String) :
    List Act × Row1 :=
  ([Act.sleep, Act.reqBook],
   mkRow1 film day kv.1 kv.2 (st.reveal film.id day (parseSeanceKey kv.1).seanceId))

/-- First variant, per-day body: sleep, GET the showtime list; an empty
list only ends this branch (`continue`), contributing no rows. -/
def dayStep1 (st : Stub) (film : Film) (day : String) : List Act × List Row1 :=
  let ks := (st.seances film.id day).getD []
  (Act.sleep :: Act.reqSeances ::
     (ks.map fun kv => (seanceStep1 st film day kv).1).flatten,
   ks.map fun kv => (seanceStep1 st film day kv).2)

/-- First variant, per-film body: sleep, GET the day list; an empty list
only ends this branch (`continue`). -/
def filmStep1 (st : Stub) (film : Film) : List Act × List Row1 :=
  let ds := (st.days film.id).getD []
  (Act.sleep :: Act.reqDays :: (ds.map fun d => (dayStep1 st film d).1).flatten,
   (ds.map fun d => (dayStep1 st film d).2).flatten)

/-- `main` of the first variant (lines 173–301).  The film selection is
`[parseFilmsFromHTML(...)[0]]`: a one-element array, so the explicit
`if (!films.length) process.exit(1)` guard never fires; when the page
yields no films that element is `undefined` and the loop body throws a
`TypeError` at `film.id` right after its first `sleep`, which the
top-level `catch` turns into `process.exit(1)` with no file written.
On success the collected rows are sorted and the CSV is always written. -/
def main1 (st : Stub) : RunOut Row1 :=
  match (parseFilmsFromHTML st.seedDoc).head? with
  | none =>
    { trace := [Act.reqSeed, Act.sleep], exitCode := 1, rows := [], output := none }
  | some film =>
    let pr := filmStep1 st film
    let sorted := sortRows1 pr.2
    { trace := Act.reqSeed :: pr.1
    , exitCode := 0
    , rows := sorted
    , output := some (toCSV1 sorted) }

/-- Second variant, innermost loop body: as `seanceStep1`, but the POST
carries the raw composite key (`modresa_seance: key`) and the row carries
the reservation URL. -/
def seanceStep2 (slug : String) (st : Stub) (film : Film) (day : String)
    (kv : String × String) : List Act × Row2 :=
  ([Act.sleep, Act.reqBook],
   mkRow2 slug film day kv.1 kv.2 (st.reveal film.id day kv.1))

/-- Second variant, per-day body. -/
def dayStep2 (slug : String) (st : Stub) (film : Film) (day : String) :
    List Act × List Row2 :=
  let ks := (st.seances film.id day).getD []
  (Act.sleep :: Act.reqSeances ::
     (ks.map fun kv => (seanceStep2 slug st film day kv).1).flatten,
   ks.map fun kv => (seanceStep2 slug st film day kv).2)

/-- Second variant, per-film body. -/
def filmStep2 (slug : String) (st : Stub) (film : Film) : List Act × List Row2 :=
  let ds := (st.days film.id).getD []
  (Act.sleep :: Act.reqDays :: (ds.map fun d => (dayStep2 slug st film d).1).flatten,
   (ds.map fun d => (dayStep2 slug st film d).2).flatten)

/-- `main` of the second variant (lines 457–559).  The film selection is
`[parseFilmsFromHTML(...)[1]]` — the *second* film; with fewer than two
films that element is `undefined`, the dead length guard is again skipped,
and the loop body throws at `film.title` before its first `sleep`
(exit 1, no file).  On success the sorted rows go through `saveCSV`,
which skips writing when there are no rows. -/
def main2 (slug : String) (st : Stub) : RunOut Row2 :=
  match (parseFilmsFromHTML st.seedDoc)[1]? with
  | none =>
    { trace := [Act.reqSeed], exitCode := 1, rows := [], output := none }
  | some film =>
    let pr := filmStep2 slug st film
    let sorted := sortRows2 pr.2
    { trace := Act.reqSeed :: pr.1
    , exitCode := 0
    , rows := sorted
    , output := saveCSV sorted }

def CaptureOk (m : List Char) : Prop :=
  (∃ d, m = [d] ∧ d.isDigit = true) ∨
  (∃ d e, m = [d, e] ∧ d.isDigit = true ∧ e.isDigit = true)

def c5RowA : Row1 :=
  { cinema := "lefrancais", salle := "02", salle_label := "Salle 2", film_id := "1"
  , film_titre := "A", date := "2025-01-01", heure := "10h00", version := "VF"
  , audio := "", seance_id := "9", ts := JSNum.val 0 }

def c5RowB : Row1 :=
  { cinema := "lefrancais", salle := "01", salle_label := "Salle 1", film_id := "2"
  , film_titre := "B", date := "2025-01-02", heure := "20h00", version := "VF"
  , audio := "", seance_id := "8", ts := JSNum.val 0 }

def c10Stub : Stub :=
  { seedDoc := [⟨some "1", "A"⟩, ⟨some "2", "B"⟩]
  , days := fun _ => some []
  , seances := fun _ _ => none
  , reveal := fun _ _ _ => ⟨[], none⟩ }

def c4StubNoFilms : Stub :=
  { seedDoc := []
  , days := fun _ => none
  , seances := fun _ _ => none
  , reveal := fun _ _ _ => ⟨[], none⟩ }

def c1RevealDoc : RevealDoc := ⟨[⟨some "/img/tags/sal_10.png", none, none, none⟩], none⟩

def c1Film : Film := ⟨"67890", "Elio"⟩

def c1Stub : Stub :=
  { seedDoc := [⟨some "67890", "Elio"⟩]
  , days := fun fid => if fid = "67890" then some ["2025-08-25"] else none
  , seances := fun fid d =>
      if fid = "67890" ∧ d = "2025-08-25" then
        some [("1724606400/VF/543210", "14h00 - VF")]
      else none
  , reveal := fun _ _ _ => c1RevealDoc }

def c1StubLoose : Stub :=
  { seedDoc := [⟨some "67890", "Elio"⟩]
  , days := fun fid => if fid = "67890" then some ["2025-08-25"] else none
  , seances := fun fid d =>
      if fid = "67890" ∧ d = "2025-08-25" then
        some [("1724606400/VF/543210", "14h00 - VF")]
      else none
  , reveal := fun _ _ _ => ⟨[⟨some "sal_10.png", none, none, none⟩], none⟩ }

def c1RowActual : Row1 :=
  { cinema := "lefrancais", salle := "10", salle_label := "Salle 10"
  , film_id := "67890", film_titre := "Elio", date := "2025-08-25"
  , heure := "14h00", version := "VF", audio := "", seance_id := "543210"
  , ts := JSNum.val 1724606400 }

def c1RowClaimed : Row1 :=
  { cinema := "lefrancais", salle := "10", salle_label := "Room 10"
  , film_id := "67890", film_titre := "Elio", date := "2025-08-25"
  , heure := "14h00", version := "VF", audio := "", seance_id := "543210"
  , ts := JSNum.val 1724606400 }

theorem char_eq_of_toNat_eq {a b : Char} (h : a.toNat = b.toNat) : a = b := by
  unfold Char.toNat at h
  exact Char.ext (UInt32.toNat.inj h)

theorem char_le_toNat {a b : Char} : a ≤ b ↔ a.toNat ≤ b.toNat := Iff.rfl

theorem isDigit_iff {c : Char} : c.isDigit = true ↔ 48 ≤ c.toNat ∧ c.toNat ≤ 57 := by
  simp only [Char.isDigit, Bool.and_eq_true, decide_eq_true_eq, ge_iff_le]
  exact and_congr Iff.rfl Iff.rfl

theorem isJsWs_iff {c : Char} : isJsWs c = true ↔
    c.toNat = 32 ∨ c.toNat = 9 ∨ c.toNat = 10 ∨ c.toNat = 13 ∨ c.toNat = 11 ∨
    c.toNat = 12 ∨ c.toNat = 160 ∨ c.toNat = 5760 ∨
    (8192 ≤ c.toNat ∧ c.toNat ≤ 8202) ∨ c.toNat = 8232 ∨ c.toNat = 8233 ∨
    c.toNat = 8239 ∨ c.toNat = 8287 ∨ c.toNat = 12288 ∨ c.toNat = 65279 := by
  simp [isJsWs, Bool.or_eq_true, Bool.and_eq_true, decide_eq_true_eq]
  tauto

theorem digit_not_ws {c : Char} (h : c.isDigit = true) : isJsWs c = false := by
  rw [Bool.eq_false_iff]
  intro h2
  have h1 := isDigit_iff.mp h
  have h3 := isJsWs_iff.mp h2
  omega

theorem dropWhile_all_false {p : Char → Bool} :
    ∀ {l : List Char}, (∀ c ∈ l, p c = false) → l.dropWhile p = l
  | [], _ => rfl
  | c :: r, h => by
    rw [List.dropWhile_cons, if_neg]
    simp [h c (by simp)]

theorem trimWs_id {l : List Char} (h : ∀ c ∈ l, isJsWs c = false) : trimWs l = l := by
  unfold trimWs
  rw [dropWhile_all_false h, dropWhile_all_false, List.reverse_reverse]
  intro c hc
  exact h c (by simpa using hc)

theorem takeWhile_all_true {p : Char → Bool} :
    ∀ {l : List Char}, (∀ c ∈ l, p c = true) → l.takeWhile p = l
  | [], _ => rfl
  | c :: r, h => by
    rw [List.takeWhile_cons, if_pos (by simp [h c (by simp)])]
    rw [takeWhile_all_true fun c hc => h c (by simp [hc])]

theorem dropWhile_all_true {p : Char → Bool} :
    ∀ {l : List Char}, (∀ c ∈ l, p c = true) → l.dropWhile p = []
  | [], _ => rfl
  | c :: r, h => by
    rw [List.dropWhile_cons, if_pos (by simp [h c (by simp)])]
    exact dropWhile_all_true fun c hc => h c (by simp [hc])

theorem splitChar_no_sep {sep : Char} :
    ∀ {p : List Char}, sep ∉ p → splitChar sep p = [p]
  | [], _ => rfl
  | c :: r, h => by
    have hc : c ≠ sep := fun hh => h (hh ▸ List.mem_cons_self c r)
    have hr : sep ∉ r := fun hh => h (List.mem_cons_of_mem c hh)
    rw [splitChar, if_neg hc, splitChar_no_sep hr]

theorem splitChar_append {sep : Char} :
    ∀ {p : List Char}, sep ∉ p → ∀ rest,
      splitChar sep (p ++ sep :: rest) = p :: splitChar sep rest
  | [], _, rest => by
    rw [List.nil_append, splitChar, if_pos rfl]
  | c :: r, h, rest => by
    have hc : c ≠ sep := fun hh => h (hh ▸ List.mem_cons_self c r)
    have hr : sep ∉ r := fun hh => h (List.mem_cons_of_mem c hh)
    rw [List.cons_append, splitChar, if_neg hc, splitChar_append hr rest]

theorem jsNumber_of_trim {s : String} {c : Char} {r : List Char}
    (h : trimWs s.data = c :: r) :
    jsNumber s = if c = '+' then parseSignedNum true r
      else if c = '-' then parseSignedNum false r
      else parseUnsignedNum (c :: r) := by
  unfold jsNumber
  rw [h]

theorem parseUnsignedNum_cons2 (c0 c1 : Char) (r : List Char) :
    parseUnsignedNum (c0 :: c1 :: r) =
      if c0 = '0' ∧ (c1 = 'x' ∨ c1 = 'X') then parseRadix 16 isHexDigit hexDigitVal r
      else if c0 = '0' ∧ (c1 = 'o' ∨ c1 = 'O') then
        parseRadix 8 isOctDigit (fun c => c.toNat - '0'.toNat) r
      else if c0 = '0' ∧ (c1 = 'b' ∨ c1 = 'B') then
        parseRadix 2 isBinDigit (fun c => c.toNat - '0'.toNat) r
      else parseSignedNum true (c0 :: c1 :: r) := rfl

theorem parseUnsignedNum_one (c : Char) :
    parseUnsignedNum [c] = parseSignedNum true [c] := rfl

theorem parseDecQ_stuck {c : Char} {r : List Char}
    (hcd : c.isDigit = false) (hdot : c ≠ '.') : parseDecQ (c :: r) = none := by
  unfold parseDecQ
  rw [List.takeWhile_cons, if_neg (by simp [hcd]), List.dropWhile_cons,
    if_neg (by simp [hcd])]
  unfold parseDecQAux
  simp only [List.isEmpty_nil, if_pos trivial]
  split
  · rename_i r2 heq
    injection heq with h1 h2
    exact absurd h1 hdot
  · rfl

theorem decBase_nil (n : Nat) : decBase n [] = (n : ℚ) := rfl

theorem jsNumber_digits {l : List Char} (hne : l ≠ []) (hd : ∀ c ∈ l, c.isDigit = true) :
    jsNumber (String.mk l) = JSNum.val (natOfDigits l : ℚ) := by
  have hdata : (String.mk l).data = l := rfl
  have htrim : trimWs l = l := trimWs_id fun c hc => digit_not_ws (hd c hc)
  obtain ⟨c, r, rfl⟩ : ∃ c r, l = c :: r := by
    cases l with
    | nil => exact absurd rfl hne
    | cons c r => exact ⟨c, r, rfl⟩
  rw [jsNumber_of_trim (hdata ▸ htrim)]
  have hc := hd c (List.mem_cons_self c r)
  have hcp : c ≠ '+' := fun hh => by rw [hh] at hc; exact absurd hc (by decide)
  have hcm : c ≠ '-' := fun hh => by rw [hh] at hc; exact absurd hc (by decide)
  rw [if_neg hcp, if_neg hcm]
  have hsigned : parseSignedNum true (c :: r) = JSNum.val (natOfDigits (c :: r) : ℚ) := by
    have hinf : c :: r ≠ ['I', 'n', 'f', 'i', 'n', 'i', 't', 'y'] := by
      intro hh
      have : c = 'I' := (List.cons.injEq _ _ _ _ ▸ hh).1
      rw [this] at hc; exact absurd hc (by decide)
    unfold parseSignedNum
    rw [if_neg hinf]
    unfold parseDecQ
    rw [takeWhile_all_true hd, dropWhile_all_true hd]
    unfold parseDecQAux
    simp only [List.isEmpty_eq_true, if_neg hne]
    rfl
  cases r with
  | nil => rw [parseUnsignedNum_one]; exact hsigned
  | cons c1 rr =>
    have hc1 := hd c1 (by simp)
    have h1 : ¬ (c = '0' ∧ (c1 = 'x' ∨ c1 = 'X')) := by
      rintro ⟨-, rfl | rfl⟩ <;> exact absurd hc1 (by decide)
    have h2 : ¬ (c = '0' ∧ (c1 = 'o' ∨ c1 = 'O')) := by
      rintro ⟨-, rfl | rfl⟩ <;> exact absurd hc1 (by decide)
    have h3 : ¬ (c = '0' ∧ (c1 = 'b' ∨ c1 = 'B')) := by
      rintro ⟨-, rfl | rfl⟩ <;> exact absurd hc1 (by decide)
    rw [parseUnsignedNum_cons2, if_neg h1, if_neg h2, if_neg h3]
    exact hsigned

theorem jsNumber_upper_nan {l : List Char} (hne : l ≠ [])
    (hu : ∀ c ∈ l, 'A' ≤ c ∧ c ≤ 'Z') :
    jsNumber (String.mk l) = JSNum.nan := by
  have hdata : (String.mk l).data = l := rfl
  have hnotws : ∀ c ∈ l, isJsWs c = false := by
    intro c hc
    obtain ⟨h1, h2⟩ := hu c hc
    rw [char_le_toNat] at h1 h2
    have hA : ('A').toNat = 65 := rfl
    have hZ : ('Z').toNat = 90 := rfl
    rw [Bool.eq_false_iff]
    intro hw
    have := isJsWs_iff.mp hw
    omega
  have hnotdigit : ∀ c ∈ l, c.isDigit = false := by
    intro c hc
    obtain ⟨h1, h2⟩ := hu c hc
    rw [char_le_toNat] at h1 h2
    have hA : ('A').toNat = 65 := rfl
    rw [Bool.eq_false_iff]
    intro hd
    have := isDigit_iff.mp hd
    omega
  have htrim : trimWs l = l := trimWs_id hnotws
  obtain ⟨c, r, rfl⟩ : ∃ c r, l = c :: r := by
    cases l with
    | nil => exact absurd rfl hne
    | cons c r => exact ⟨c, r, rfl⟩
  rw [jsNumber_of_trim (hdata ▸ htrim)]
  have hc := hu c (List.mem_cons_self c r)
  have hcp : c ≠ '+' := fun hh => by rw [hh] at hc; exact absurd hc (by decide)
  have hcm : c ≠ '-' := fun hh => by rw [hh] at hc; exact absurd hc (by decide)
  rw [if_neg hcp, if_neg hcm]
  have hcd : c.isDigit = false := hnotdigit c (List.mem_cons_self c r)
  have hsigned : parseSignedNum true (c :: r) = JSNum.nan := by
    have hinf : c :: r ≠ ['I', 'n', 'f', 'i', 'n', 'i', 't', 'y'] := by
      intro hh
      have hmem : 'n' ∈ c :: r := by rw [hh]; simp
      have := hu 'n' hmem
      exact absurd this (by decide)
    unfold parseSignedNum
    rw [if_neg hinf]
    have hdot : c ≠ '.' := fun hh => by rw [hh] at hc; exact absurd hc (by decide)
    rw [parseDecQ_stuck hcd hdot]
  cases r with
  | nil => rw [parseUnsignedNum_one]; exact hsigned
  | cons c1 rr =>
    have h0 : c ≠ '0' := fun hh => by rw [hh] at hc; exact absurd hc (by decide)
    have h1 : ¬ (c = '0' ∧ (c1 = 'x' ∨ c1 = 'X')) := fun hh => h0 hh.1
    have h2 : ¬ (c = '0' ∧ (c1 = 'o' ∨ c1 = 'O')) := fun hh => h0 hh.1
    have h3 : ¬ (c = '0' ∧ (c1 = 'b' ∨ c1 = 'B')) := fun hh => h0 hh.1
    rw [parseUnsignedNum_cons2, if_neg h1, if_neg h2, if_neg h3]
    exact hsigned

theorem jsSplit_slash (s : String) :
    jsSplit "/" s = (splitChar '/' s.data).map String.mk := rfl

theorem mk_data (s : String) : String.mk s.data = s := rfl

theorem jsSplit_slash_three (t v i : String) (hT : '/' ∉ t.data)
    (hv : '/' ∉ v.data) (hi : '/' ∉ i.data) :
    jsSplit "/" (t ++ "/" ++ v ++ "/" ++ i) = [t, v, i] := by
  rw [jsSplit_slash]
  have hdata : (t ++ "/" ++ v ++ "/" ++ i).data =
      t.data ++ '/' :: (v.data ++ '/' :: i.data) := by
    simp [String.data_append]
  rw [hdata, splitChar_append hT, splitChar_append hv, splitChar_no_sep hi]
  simp [mk_data]

theorem digits_no_slash {t : String} (hd : ∀ c ∈ t.data, c.isDigit = true) :
    '/' ∉ t.data := fun hm => absurd (hd '/' hm) (by decide)

/-- C3 (amended): both decoders are total functions of the input string
(they are defined by structural recursion, the embedding of code that never
throws); a key with all three slash-delimited segments decodes to the exact
timestamp, version and internal id; with fewer segments the missing
positions decode to the empty string; and the timestamp position decodes to
the `NaN` sentinel on a nonempty non-numeral segment (it decodes to the
number `0`, not `NaN`, on an empty segment — see the counterexample). -/
theorem seance_decoders_c3 :
    (∀ (t v i : String), t.data ≠ [] → (∀ c ∈ t.data, c.isDigit = true) →
      natOfDigits t.data < 2 ^ 53 → ('/' ∉ v.data) → ('/' ∉ i.data) →
      parseSeanceKey (t ++ "/" ++ v ++ "/" ++ i) =
        ⟨JSNum.val (natOfDigits t.data : ℚ), v, i⟩)
  ∧ (∀ key : String,
      ((jsSplit "/" key).length ≤ 1 →
        (parseSeanceKey key).version = "" ∧ (parseSeanceKey key).seanceId = "")
      ∧ ((jsSplit "/" key).length ≤ 2 → (parseSeanceKey key).seanceId = ""))
  ∧ (∀ label : String,
      ((jsSplit " - " label).length ≤ 1 →
        (parseSeanceLabel label).version = "" ∧ (parseSeanceLabel label).audio = "")
      ∧ ((jsSplit " - " label).length ≤ 2 → (parseSeanceLabel label).audio = ""))
  ∧ (∀ key : String, ((jsSplit "/" key).getD 0 "").data ≠ [] →
      (∀ c ∈ ((jsSplit "/" key).getD 0 "").data, 'A' ≤ c ∧ c ≤ 'Z') →
      (parseSeanceKey key).ts = JSNum.nan) := by
  refine ⟨?_, ?_, ?_, ?_⟩
  · intro t v i hne hd hlt hv hi
    unfold parseSeanceKey
    rw [jsSplit_slash_three t v i (digits_no_slash hd) hv hi]
    have hjs : jsNumber t = JSNum.val (natOfDigits t.data : ℚ) := jsNumber_digits hne hd
    simp [List.getD_cons_zero, List.getD_cons_succ, hjs]
  · intro key
    constructor
    · intro h
      unfold parseSeanceKey
      constructor
      · exact List.getD_eq_default _ _ (by omega)
      · exact List.getD_eq_default _ _ (by omega)
    · intro h
      unfold parseSeanceKey
      exact List.getD_eq_default _ _ (by omega)
  · intro label
    constructor
    · intro h
      unfold parseSeanceLabel
      constructor
      · exact List.getD_eq_default _ _ (by simp; omega)
      · exact List.getD_eq_default _ _ (by simp; omega)
    · intro h
      unfold parseSeanceLabel
      exact List.getD_eq_default _ _ (by simp; omega)
  · intro key hne hu
    unfold parseSeanceKey
    exact jsNumber_upper_nan hne hu

/-- C3, counterexample to the claim as stated: the key `""` has fewer than
the expected three delimited segments, yet its timestamp position decodes
to the numeric value `0` (JavaScript `Number("")`), not to a non-numeric
sentinel. -/
theorem seanceKey_empty_cex_c3 :
    (jsSplit "/" "").length = 1 ∧ (1 : Nat) < 3 ∧
    parseSeanceKey "" = ⟨JSNum.val 0, "", ""⟩ ∧ JSNum.val 0 ≠ JSNum.nan := by
  decide

/-- C3, witness: the amended theorem applied at concrete inputs. -/
theorem seance_decoders_c3_witness :
    parseSeanceKey ("1724606400" ++ "/" ++ "VF" ++ "/" ++ "543210") =
      ⟨JSNum.val (natOfDigits ("1724606400").data : ℚ), "VF", "543210"⟩ ∧
    ((parseSeanceKey "solo").version = "" ∧ (parseSeanceKey "solo").seanceId = "") ∧
    ((parseSeanceLabel "14h00").version = "" ∧ (parseSeanceLabel "14h00").audio = "") ∧
    (parseSeanceKey "VF/1240").ts = JSNum.nan :=
  ⟨seance_decoders_c3.1 "1724606400" "VF" "543210" (by decide) (by decide)
      (by decide) (by decide) (by decide),
   (seance_decoders_c3.2.1 "solo").1 (by decide),
   (seance_decoders_c3.2.2.1 "14h00").1 (by decide),
   seance_decoders_c3.2.2.2 "VF/1240" (by decide) (by decide)⟩

theorem salPngAt_shape {l : List Char} {m : List Char}
    (h : salPngAt l = some m) : CaptureOk m := by
  unfold salPngAt at h
  repeat' split at h
  all_goals first
    | (injection h with hh; subst hh
       first
        | exact Or.inr ⟨_, _, rfl, by assumption, by assumption⟩
        | exact Or.inl ⟨_, rfl, by assumption⟩)
    | simp at h

theorem tagSalAt_shape {l : List Char} {m : List Char}
    (h : tagSalAt l = some m) : CaptureOk m := by
  unfold tagSalAt at h
  repeat' split at h
  all_goals first
    | (injection h with hh; subst hh
       first
        | exact Or.inr ⟨_, _, rfl, by assumption, by assumption⟩
        | exact Or.inl ⟨_, rfl, by assumption⟩)
    | simp at h

theorem salleWordAt_shape {l : List Char} {m : List Char}
    (h : salleWordAt l = some m) : CaptureOk m := by
  unfold salleWordAt at h
  repeat' split at h
  all_goals first
    | (injection h with hh; subst hh
       first
        | exact Or.inr ⟨_, _, rfl, by assumption, by assumption⟩
        | exact Or.inl ⟨_, rfl, by assumption⟩)
    | simp at h

theorem reSearch_shape {f : List Char → Option (List Char)}
    (hf : ∀ {l m}, f l = some m → CaptureOk m) :
    ∀ {l m}, reSearch f l = some m → CaptureOk m
  | [], m, h => hf (by simpa [reSearch] using h)
  | c :: rest, m, h => by
    rw [reSearch] at h
    split at h
    · rename_i r heq
      injection h with hh
      exact hf (hh ▸ heq)
    · exact reSearch_shape hf h

theorem salleMatch_shape {src cls alt title : String} {m : List Char}
    (h : salleMatch src cls alt title = some m) : CaptureOk m := by
  unfold salleMatch at h
  split at h
  · rename_i heq
    injection h with hh
    exact reSearch_shape (fun h => salPngAt_shape h) (hh ▸ heq)
  · split at h
    · rename_i heq
      injection h with hh
      exact reSearch_shape (fun h => tagSalAt_shape h) (hh ▸ heq)
    · split at h
      · rename_i heq
        injection h with hh
        exact reSearch_shape (fun h => salleWordAt_shape h) (hh ▸ heq)
      · exact reSearch_shape (fun h => salleWordAt_shape h) h

theorem salleOfCapture_padded {m : List Char} (h : CaptureOk m) :
    (salleOfCapture m).salleNum.data.length = 2 ∧
    ∀ c ∈ (salleOfCapture m).salleNum.data, c.isDigit = true := by
  obtain ⟨d, rfl, hd⟩ | ⟨d, e, rfl, hd, he⟩ := h
  · refine ⟨rfl, ?_⟩
    intro c hc
    rcases List.mem_cons.mp hc with rfl | hc2
    · decide
    · rcases List.mem_cons.mp hc2 with rfl | hc3
      · exact hd
      · exact absurd hc3 (List.not_mem_nil c)
  · have hpad : (salleOfCapture [d, e]).salleNum.data = [d, e] := by
      show padStart2 [d, e] = [d, e]
      rw [padStart2, if_neg (by simp)]
    refine ⟨by rw [hpad]; rfl, ?_⟩
    intro c hc
    rw [hpad] at hc
    rcases List.mem_cons.mp hc with rfl | hc2
    · exact hd
    · rcases List.mem_cons.mp hc2 with rfl | hc3
      · exact he
      · exact absurd hc3 (List.not_mem_nil c)

theorem extractSalle2_of_find {d : RevealDoc} {img : Img}
    (h : d.imgs.find? imgSel2 = some img) :
    extractSalle2 d =
      match salleMatch (img.src.getD "") (img.cls.getD "") (img.alt.getD "") (img.title.getD "") with
      | some m => salleOfCapture m
      | none =>
        if img.cls.getD "" = "tag tag-ICEBYCGR" then
          { salleNum := "ICE", salleLabel := "Salle ICE" }
        else { salleNum := "", salleLabel := "" } := by
  unfold extractSalle2
  rw [h]

/-- C2 (amended): the room extractor is a total function (never an
exception); on a first matching image whose src is the tag-path filename
`sal_06.png` it returns number `"06"` with label `"Salle 6"` (French
`Salle`, not `Room`); on a class embedding `tag-SAL10` it returns `"10"`/
`"Salle 10"`; the fixed special class yields the `ICE` token and label in
the second variant only (the first variant has no special-class rule and
returns empty fields); no matching image or no matching marker yields
empty fields; the numeric room number is zero-padded to two digits while
the label uses the unpadded decimal; and the filename pattern takes
priority over the class pattern, which precedes alt, title and the special
class. -/
theorem extractRoom_c2 :
    (extractSalle1 ⟨[⟨some "/img/tags/sal_06.png", none, none, none⟩], none⟩ =
        ⟨"06", "Salle 6"⟩)
  ∧ (extractSalle2 ⟨[⟨some "/img/tags/sal_06.png", none, none, none⟩], none⟩ =
        ⟨"06", "Salle 6"⟩)
  ∧ (extractSalle2 ⟨[⟨none, some "tag-SAL10", none, none⟩], none⟩ =
        ⟨"10", "Salle 10"⟩)
  ∧ (extractSalle2 ⟨[⟨none, some "tag tag-ICEBYCGR", none, none⟩], none⟩ =
        ⟨"ICE", "Salle ICE"⟩)
  ∧ (extractSalle1 ⟨[⟨none, some "tag tag-ICEBYCGR", none, none⟩], none⟩ =
        ⟨"", ""⟩)
  ∧ (extractSalle2 ⟨[⟨some "/img/tags/sal_03.png", some "tag-SAL10", none, none⟩], none⟩ =
        ⟨"03", "Salle 3"⟩)
  ∧ (∀ d : RevealDoc, d.imgs.find? imgSel2 = none → extractSalle2 d = ⟨"", ""⟩)
  ∧ (∀ (d : RevealDoc) (img : Img), d.imgs.find? imgSel2 = some img →
      salleMatch (img.src.getD "") (img.cls.getD "") (img.alt.getD "") (img.title.getD "") = none →
      img.cls.getD "" ≠ "tag tag-ICEBYCGR" → extractSalle2 d = ⟨"", ""⟩)
  ∧ (∀ (d : RevealDoc) (img : Img) (m : List Char), d.imgs.find? imgSel2 = some img →
      matchSalPng (img.src.getD "") = some m → extractSalle2 d = salleOfCapture m)
  ∧ (∀ d : RevealDoc, (extractSalle2 d).salleNum = "" ∨ (extractSalle2 d).salleNum = "ICE" ∨
      ((extractSalle2 d).salleNum.data.length = 2 ∧
       ∀ c ∈ (extractSalle2 d).salleNum.data, c.isDigit = true)) := by
  refine ⟨by decide, by decide, by decide, by decide, by decide, by decide, ?_, ?_, ?_, ?_⟩
  · intro d h
    unfold extractSalle2
    rw [h]
  · intro d img hf hm hcls
    rw [extractSalle2_of_find hf, hm, if_neg hcls]
  · intro d img m hf hm
    rw [extractSalle2_of_find hf]
    unfold salleMatch
    rw [hm]
  · intro d
    rcases hf : d.imgs.find? imgSel2 with - | img
    · rw [(by unfold extractSalle2; rw [hf] :
        extractSalle2 d = { salleNum := "", salleLabel := "" })]
      exact Or.inl rfl
    · rw [extractSalle2_of_find hf]
      split
      · rename_i heq
        exact Or.inr (Or.inr (salleOfCapture_padded (salleMatch_shape heq)))
      · split
        · exact Or.inr (Or.inl rfl)
        · exact Or.inl rfl

/-- C2, counterexample to the claim as stated: the label produced for
`sal_06.png` is `"Salle 6"`, not `"Room 6"`; and the first variant's
extractor returns empty fields, not the special room, on the fixed
special-category class. -/
theorem extractRoom_cex_c2 :
    extractSalle2 ⟨[⟨some "/img/tags/sal_06.png", none, none, none⟩], none⟩ =
      ⟨"06", "Salle 6"⟩ ∧
    "Salle 6" ≠ "Room 6" ∧
    extractSalle1 ⟨[⟨none, some "tag tag-ICEBYCGR", none, none⟩], none⟩ = ⟨"", ""⟩ := by
  decide

/-- C2, witness: the universal clauses of the amended theorem applied at
concrete inputs. -/
theorem extractRoom_c2_witness :
    extractSalle2 ⟨[], none⟩ = ⟨"", ""⟩ ∧
    extractSalle2 ⟨[⟨some "/img/tags/sal_07.png", some "tag-SAL10", none, none⟩], none⟩ =
      salleOfCapture ['0', '7'] :=
  ⟨extractRoom_c2.2.2.2.2.2.2.1 ⟨[], none⟩ (by decide),
   extractRoom_c2.2.2.2.2.2.2.2.2.1 ⟨[⟨some "/img/tags/sal_07.png", some "tag-SAL10", none, none⟩], none⟩
     ⟨some "/img/tags/sal_07.png", some "tag-SAL10", none, none⟩ ['0', '7']
     (by decide) (by decide)⟩

theorem doubleQuotes_ne_nil {l : List Char} (h : l ≠ []) : doubleQuotes l ≠ [] := by
  cases l with
  | nil => exact absurd rfl h
  | cons c r =>
    unfold doubleQuotes
    split <;> simp

theorem undouble_double : ∀ l : List Char, undoubleQuotes (doubleQuotes l) = l
  | [] => rfl
  | c :: r => by
    by_cases hc : c = '"'
    · subst hc
      rw [doubleQuotes, if_pos rfl, undoubleQuotes, if_pos ⟨rfl, rfl⟩, undouble_double r]
    · rw [doubleQuotes, if_neg hc]
      cases hr : doubleQuotes r with
      | nil =>
        cases r with
        | nil => rfl
        | cons d t => exact absurd hr (doubleQuotes_ne_nil (by simp))
      | cons d t =>
        rw [undoubleQuotes, if_neg (fun hh => hc hh.1), ← hr, undouble_double r]

theorem csvUnescape_cons_quote (rest : List Char) :
    csvUnescape (String.mk ('"' :: rest)) =
      if rest.getLast? = some '"' then String.mk (undoubleQuotes rest.dropLast)
      else String.mk ('"' :: rest) := rfl

theorem csvUnescape_quoted (l : List Char) :
    csvUnescape (String.mk ('"' :: (doubleQuotes l ++ ['"']))) = String.mk l := by
  rw [csvUnescape_cons_quote, List.getLast?_concat, if_pos rfl, List.dropLast_concat,
    undouble_double]

/-- C6: a field containing the delimiter, a quote or a newline is wrapped
in quotes with embedded quotes doubled by `csvEscape` (first variant; its
delimiter is `;`), and re-parsing the serialized field with the same
escaping rule recovers the original field exactly; the second variant's
quote-all field transform round-trips the same way. -/
theorem csv_roundtrip_c6 : ∀ s : String,
    s.data.contains ';' = true ∨ s.data.contains '"' = true ∨ s.data.contains '\n' = true →
    csvEscape s = String.mk ('"' :: (doubleQuotes s.data ++ ['"'])) ∧
    csvUnescape (csvEscape s) = s ∧
    csvUnescape (csvQuoteField s) = s := by
  intro s h
  have hcond : (s.data.contains ';' || s.data.contains '\n' || s.data.contains '"') = true := by
    rw [Bool.or_eq_true, Bool.or_eq_true]
    tauto
  have h1 : csvEscape s = String.mk ('"' :: (doubleQuotes s.data ++ ['"'])) := by
    unfold csvEscape
    rw [if_pos hcond]
  refine ⟨h1, ?_, ?_⟩
  · rw [h1, csvUnescape_quoted]
  · rw [show csvQuoteField s = String.mk ('"' :: (doubleQuotes s.data ++ ['"'])) from rfl,
      csvUnescape_quoted]

/-- C6, witness: the round-trip applied to a field containing the
delimiter. -/
theorem csv_roundtrip_c6_witness :
    csvEscape "a;b" = String.mk ('"' :: (doubleQuotes ("a;b").data ++ ['"'])) ∧
    csvUnescape (csvEscape "a;b") = "a;b" ∧
    csvUnescape (csvQuoteField "a;b") = "a;b" :=
  csv_roundtrip_c6 "a;b" (Or.inl (by decide))

theorem jsSplit_semi (s : String) :
    jsSplit ";" s = (splitChar ';' s.data).map String.mk := rfl

theorem splitAtEq_append {n : List Char} (h : '=' ∉ n) (v : List Char) :
    splitAtEq (n ++ '=' :: v) = some (n, v) := by
  induction n with
  | nil => rw [List.nil_append, splitAtEq, if_pos rfl]
  | cons c r ih =>
    have hc : c ≠ '=' := fun hh => h (hh ▸ List.mem_cons_self c r)
    have hr : '=' ∉ r := fun hh => h (List.mem_cons_of_mem c hh)
    rw [List.cons_append, splitAtEq, if_neg hc, ih hr]
    rfl

theorem jarGet_set_same (j : Jar) (n v : String) : jarGet (jarSet j n v) n = some v := by
  induction j with
  | nil => rw [jarSet, jarGet, if_pos rfl]
  | cons p rest ih =>
    by_cases hp : p.1 = n
    · rw [jarSet, if_pos hp, jarGet, if_pos rfl]
    · rw [jarSet, if_neg hp, jarGet, if_neg hp, ih]

theorem jarGet_set_other (j : Jar) (n v k : String) (hk : k ≠ n) :
    jarGet (jarSet j n v) k = jarGet j k := by
  induction j with
  | nil =>
    show (if n = k then some v else jarGet [] k) = jarGet [] k
    rw [if_neg fun hh => hk hh.symm]
  | cons p rest ih =>
    by_cases hp : p.1 = n
    · rw [jarSet, if_pos hp]
      show (if n = k then some v else jarGet rest k) =
        (if p.1 = k then some p.2 else jarGet rest k)
      rw [if_neg fun hh => hk hh.symm, if_neg (fun hh : p.1 = k => hk (hh ▸ hp))]
    · rw [jarSet, if_neg hp]
      show (if p.1 = k then some p.2 else jarGet (jarSet rest n v) k) =
        (if p.1 = k then some p.2 else jarGet rest k)
      rw [ih]

theorem setCookieOne_eq {n v : String} (j : Jar)
    (hn1 : ';' ∉ n.data) (hn2 : '=' ∉ n.data) (hv : ';' ∉ v.data) :
    setCookieOne j (n ++ "=" ++ v) = jarSet j (jsTrim n) (jsTrim v) := by
  have hdata : (n ++ "=" ++ v).data = n.data ++ '=' :: v.data := by
    simp [String.data_append]
  have hnosemi : ';' ∉ n.data ++ '=' :: v.data := by
    intro hm
    rcases List.mem_append.mp hm with hm | hm
    · exact hn1 hm
    · rcases List.mem_cons.mp hm with hm | hm
      · exact absurd hm.symm (by decide)
      · exact hv hm
  have hfirst : ((jsSplit ";" (n ++ "=" ++ v)).headD "").data = n.data ++ '=' :: v.data := by
    rw [jsSplit_semi, hdata, splitChar_no_sep hnosemi]
    rfl
  unfold setCookieOne
  rw [hfirst, splitAtEq_append hn2]
  rfl

theorem setCookieOne_drops_attrs {p : String} (j : Jar) (hp : ';' ∉ p.data) (attrs : String) :
    setCookieOne j (p ++ ";" ++ attrs) = setCookieOne j p := by
  unfold setCookieOne
  have hdata : (p ++ ";" ++ attrs).data = p.data ++ ';' :: attrs.data := by
    simp [String.data_append]
  rw [jsSplit_semi, jsSplit_semi, hdata, splitChar_append hp, splitChar_no_sep hp]
  rfl

theorem joinSemi_cons (x : String) (xs : List String) :
    ∃ t : List Char, (joinSemi (x :: xs)).data = x.data ++ t := by
  cases xs with
  | nil => exact ⟨[], by simp [joinSemi]⟩
  | cons y ys =>
    refine ⟨("; ").data ++ (joinSemi (y :: ys)).data, ?_⟩
    show ((x ++ "; ") ++ joinSemi (y :: ys)).data = _
    simp [String.data_append]

theorem jarHeader_ne_empty {j : Jar} (h : j ≠ []) : jarHeader j ≠ "" := by
  obtain ⟨p, rest, rfl⟩ : ∃ p rest, j = p :: rest := by
    cases j with
    | nil => exact absurd rfl h
    | cons p rest => exact ⟨p, rest, rfl⟩
  unfold jarHeader
  rw [List.map_cons]
  obtain ⟨t, ht⟩ := joinSemi_cons (p.1 ++ "=" ++ p.2) (rest.map fun q => q.1 ++ "=" ++ q.2)
  intro hempty
  have hd : (joinSemi ((p.1 ++ "=" ++ p.2) :: rest.map fun q => q.1 ++ "=" ++ q.2)).data = [] := by
    rw [hempty]
  rw [ht] at hd
  rcases List.append_eq_nil.mp hd with ⟨hd1, -⟩
  simp [String.data_append] at hd1

theorem splitAtEq_none {p : List Char} (h : '=' ∉ p) : splitAtEq p = none := by
  induction p with
  | nil => rfl
  | cons c r ih =>
    have hc : c ≠ '=' := fun hh => h (hh ▸ List.mem_cons_self c r)
    have hr : '=' ∉ r := fun hh => h (List.mem_cons_of_mem c hh)
    rw [splitAtEq, if_neg hc, ih hr]
    rfl

/-- C8: recording a session-cookie directive stores only its leading
`name=value` pair — everything after the first `;` is ignored and a
directive with no `=` is skipped; a stored name is overwritten by a later
write (last-write-wins) while other names are untouched; attaching
serializes all held pairs into a single `Cookie` header joined by `"; "`,
and adds no header at all when the jar is empty. -/
theorem cookieJar_c8 :
    (∀ (j : Jar) (p attrs : String), ';' ∉ p.data →
      setCookieOne j (p ++ ";" ++ attrs) = setCookieOne j p)
  ∧ (∀ (j : Jar) (n v : String), ';' ∉ n.data → '=' ∉ n.data → ';' ∉ v.data →
      setCookieOne j (n ++ "=" ++ v) = jarSet j (jsTrim n) (jsTrim v))
  ∧ (∀ (j : Jar) (p : String), ';' ∉ p.data → '=' ∉ p.data → setCookieOne j p = j)
  ∧ (∀ (j : Jar) (n v : String), jarGet (jarSet j n v) n = some v)
  ∧ (∀ (j : Jar) (n v k : String), k ≠ n → jarGet (jarSet j n v) k = jarGet j k)
  ∧ (∀ h : Hdrs, applyJar [] h = h)
  ∧ (∀ (j : Jar) (h : Hdrs), j ≠ [] →
      applyJar j h = hdrSet h "Cookie" (jarHeader j)) := by
  refine ⟨?_, ?_, ?_, jarGet_set_same, jarGet_set_other, fun h => rfl, ?_⟩
  · intro j p attrs hp
    exact setCookieOne_drops_attrs j hp attrs
  · intro j n v hn1 hn2 hv
    exact setCookieOne_eq j hn1 hn2 hv
  · intro j p hsemi heq
    unfold setCookieOne
    have hfirst : ((jsSplit ";" p).headD "").data = p.data := by
      rw [jsSplit_semi, splitChar_no_sep hsemi]
      rfl
    rw [hfirst, splitAtEq_none heq]
  · intro j h hj
    unfold applyJar
    rw [if_neg (jarHeader_ne_empty hj)]

/-- C8, witness: the clauses applied at concrete directives and jars. -/
theorem cookieJar_c8_witness :
    setCookieOne [] ("PHPSESSID" ++ "=" ++ "abc" ++ ";" ++ " Path=/") =
      setCookieOne [] ("PHPSESSID" ++ "=" ++ "abc") ∧
    setCookieOne [] ("PHPSESSID" ++ "=" ++ "abc") =
      jarSet [] (jsTrim "PHPSESSID") (jsTrim "abc") ∧
    jarGet (jarSet [("a", "1")] "a" "2") "a" = some "2" ∧
    jarGet (jarSet [("a", "1")] "b" "2") "a" = some "1" ∧
    applyJar [("a", "1")] [] = hdrSet [] "Cookie" (jarHeader [("a", "1")]) :=
  ⟨cookieJar_c8.1 [] ("PHPSESSID" ++ "=" ++ "abc") " Path=/" (by decide),
   cookieJar_c8.2.1 [] "PHPSESSID" "abc" (by decide) (by decide) (by decide),
   cookieJar_c8.2.2.2.1 [("a", "1")] "a" "2",
   cookieJar_c8.2.2.2.2.1 [("a", "1")] "b" "2" "a" (by decide),
   cookieJar_c8.2.2.2.2.2.2 [("a", "1")] [] (by decide)⟩

theorem char_lt_toNat {a b : Char} : a < b ↔ a.toNat < b.toNat := Iff.rfl

theorem listCharLt_lex : ∀ (as bs : List Char),
    listCharLt as bs = true ↔ List.Lex (· < ·) as bs
  | [], [] => ⟨fun h => by simp [listCharLt] at h, fun h => by cases h⟩
  | [], b :: bs => ⟨fun _ => List.Lex.nil, fun _ => rfl⟩
  | a :: as, [] => ⟨fun h => by simp [listCharLt] at h, fun h => by cases h⟩
  | a :: as, b :: bs => by
    rw [listCharLt]
    simp only [Bool.or_eq_true, Bool.and_eq_true, decide_eq_true_eq,
      listCharLt_lex as bs]
    constructor
    · rintro (h | ⟨heq, hrec⟩)
      · exact List.Lex.rel (char_lt_toNat.mpr h)
      · have hab : a = b := char_eq_of_toNat_eq heq
        subst hab
        exact List.Lex.cons hrec
    · intro h
      cases h with
      | rel hab => exact Or.inl (char_lt_toNat.mp hab)
      | cons hrec => exact Or.inr ⟨rfl, hrec⟩

theorem strLt_iff {a b : String} : listCharLt a.data b.data = true ↔ a < b := by
  rw [String.lt_iff_toList_lt]
  exact listCharLt_lex a.data b.data

theorem then_then_ne_gt (A B C : Ordering) :
    (A.then B).then C ≠ Ordering.gt ↔
      A = Ordering.lt ∨ (A = Ordering.eq ∧
        (B = Ordering.lt ∨ (B = Ordering.eq ∧ C ≠ Ordering.gt))) := by
  cases A <;> cases B <;> cases C <;> decide

theorem lcCmp_lt {a b : String} : lcCmp a b = Ordering.lt ↔ a < b := by
  unfold lcCmp
  split_ifs with h1 h2
  · simp [strLt_iff.mp h1]
  · exact ⟨fun hh => absurd hh (by decide),
      fun hh => absurd (strLt_iff.mpr hh) h1⟩
  · exact ⟨fun hh => absurd hh (by decide),
      fun hh => absurd (strLt_iff.mpr hh) h1⟩

theorem lcCmp_gt {a b : String} : lcCmp a b = Ordering.gt ↔ b < a := by
  unfold lcCmp
  split_ifs with h1 h2
  · exact ⟨fun hh => absurd hh (by decide),
      fun hh => absurd hh (asymm (strLt_iff.mp h1))⟩
  · simp [strLt_iff.mp h2]
  · exact ⟨fun hh => absurd hh (by decide),
      fun hh => absurd (strLt_iff.mpr hh) h2⟩

theorem lcCmp_eq {a b : String} : lcCmp a b = Ordering.eq ↔ a = b := by
  unfold lcCmp
  split_ifs with h1 h2
  · exact ⟨fun hh => absurd hh (by decide),
      fun hh => absurd (strLt_iff.mp h1) (hh ▸ lt_irrefl b)⟩
  · exact ⟨fun hh => absurd hh (by decide),
      fun hh => absurd (strLt_iff.mp h2) (hh ▸ lt_irrefl b)⟩
  · refine ⟨fun _ => ?_, fun _ => rfl⟩
    have hle1 : ¬ a < b := fun hh => h1 (strLt_iff.mpr hh)
    have hle2 : ¬ b < a := fun hh => h2 (strLt_iff.mpr hh)
    exact le_antisymm (not_lt.mp hle2) (not_lt.mp hle1)

theorem rowLE1_iff {a b : Row1} : rowLE1 a b ↔
    a.salle < b.salle ∨ (a.salle = b.salle ∧
      (a.date < b.date ∨ (a.date = b.date ∧ a.heure ≤ b.heure))) := by
  unfold rowLE1 cmpRow1
  rw [then_then_ne_gt, lcCmp_lt, lcCmp_eq, lcCmp_lt, lcCmp_eq]
  have : lcCmp a.heure b.heure ≠ Ordering.gt ↔ a.heure ≤ b.heure := by
    rw [Ne, lcCmp_gt, not_lt]
  rw [this]

theorem rowLE2_iff {a b : Row2} : rowLE2 a b ↔
    a.salle < b.salle ∨ (a.salle = b.salle ∧
      (a.date < b.date ∨ (a.date = b.date ∧ a.heure ≤ b.heure))) := by
  unfold rowLE2 cmpRow2
  rw [then_then_ne_gt, lcCmp_lt, lcCmp_eq, lcCmp_lt, lcCmp_eq]
  have : lcCmp a.heure b.heure ≠ Ordering.gt ↔ a.heure ≤ b.heure := by
    rw [Ne, lcCmp_gt, not_lt]
  rw [this]

theorem rowLE1_total (a b : Row1) : rowLE1 a b ∨ rowLE1 b a := by
  rw [rowLE1_iff, rowLE1_iff]
  rcases lt_trichotomy a.salle b.salle with h | h | h
  · exact Or.inl (Or.inl h)
  · rcases lt_trichotomy a.date b.date with h2 | h2 | h2
    · exact Or.inl (Or.inr ⟨h, Or.inl h2⟩)
    · rcases le_total a.heure b.heure with h3 | h3
      · exact Or.inl (Or.inr ⟨h, Or.inr ⟨h2, h3⟩⟩)
      · exact Or.inr (Or.inr ⟨h.symm, Or.inr ⟨h2.symm, h3⟩⟩)
    · exact Or.inr (Or.inr ⟨h.symm, Or.inl h2⟩)
  · exact Or.inr (Or.inl h)

theorem rowLE2_total (a b : Row2) : rowLE2 a b ∨ rowLE2 b a := by
  rw [rowLE2_iff, rowLE2_iff]
  rcases lt_trichotomy a.salle b.salle with h | h | h
  · exact Or.inl (Or.inl h)
  · rcases lt_trichotomy a.date b.date with h2 | h2 | h2
    · exact Or.inl (Or.inr ⟨h, Or.inl h2⟩)
    · rcases le_total a.heure b.heure with h3 | h3
      · exact Or.inl (Or.inr ⟨h, Or.inr ⟨h2, h3⟩⟩)
      · exact Or.inr (Or.inr ⟨h.symm, Or.inr ⟨h2.symm, h3⟩⟩)
    · exact Or.inr (Or.inr ⟨h.symm, Or.inl h2⟩)
  · exact Or.inr (Or.inl h)

theorem rowLE1_trans (a b c : Row1) (hab : rowLE1 a b) (hbc : rowLE1 b c) : rowLE1 a c := by
  rw [rowLE1_iff] at hab hbc ⊢
  rcases hab with h1 | ⟨h1, h1'⟩
  · rcases hbc with h2 | ⟨h2, h2'⟩
    · exact Or.inl (h1.trans h2)
    · exact Or.inl (h2 ▸ h1)
  · rcases hbc with h2 | ⟨h2, h2'⟩
    · exact Or.inl (h1 ▸ h2)
    · refine Or.inr ⟨h1.trans h2, ?_⟩
      rcases h1' with h3 | ⟨h3, h3'⟩
      · rcases h2' with h4 | ⟨h4, h4'⟩
        · exact Or.inl (h3.trans h4)
        · exact Or.inl (h4 ▸ h3)
      · rcases h2' with h4 | ⟨h4, h4'⟩
        · exact Or.inl (h3 ▸ h4)
        · exact Or.inr ⟨h3.trans h4, h3'.trans h4'⟩

theorem rowLE2_trans (a b c : Row2) (hab : rowLE2 a b) (hbc : rowLE2 b c) : rowLE2 a c := by
  rw [rowLE2_iff] at hab hbc ⊢
  rcases hab with h1 | ⟨h1, h1'⟩
  · rcases hbc with h2 | ⟨h2, h2'⟩
    · exact Or.inl (h1.trans h2)
    · exact Or.inl (h2 ▸ h1)
  · rcases hbc with h2 | ⟨h2, h2'⟩
    · exact Or.inl (h1 ▸ h2)
    · refine Or.inr ⟨h1.trans h2, ?_⟩
      rcases h1' with h3 | ⟨h3, h3'⟩
      · rcases h2' with h4 | ⟨h4, h4'⟩
        · exact Or.inl (h3.trans h4)
        · exact Or.inl (h4 ▸ h3)
      · rcases h2' with h4 | ⟨h4, h4'⟩
        · exact Or.inl (h3 ▸ h4)
        · exact Or.inr ⟨h3.trans h4, h3'.trans h4'⟩

theorem sortRows1_sorted (l : List Row1) : (sortRows1 l).Sorted rowLE1 := by
  haveI : IsTotal Row1 rowLE1 := ⟨rowLE1_total⟩
  haveI : IsTrans Row1 rowLE1 := ⟨rowLE1_trans⟩
  exact List.sorted_insertionSort rowLE1 l

theorem sortRows2_sorted (l : List Row2) : (sortRows2 l).Sorted rowLE2 := by
  haveI : IsTotal Row2 rowLE2 := ⟨rowLE2_total⟩
  haveI : IsTrans Row2 rowLE2 := ⟨rowLE2_trans⟩
  exact List.sorted_insertionSort rowLE2 l

/-- C5: after the report sort (both variants), any two rows at increasing
positions are in ascending lexicographic order of the room identifier
string when those differ; in ascending date-string order at equal rooms;
and in ascending (non-strict) time-string order at equal room and date. -/
theorem report_sort_c5 :
    (∀ (l : List Row1) (r0 : Row1) (i j : Nat), i < j → j < (sortRows1 l).length →
      (((sortRows1 l).getD i r0).salle ≠ ((sortRows1 l).getD j r0).salle →
        ((sortRows1 l).getD i r0).salle < ((sortRows1 l).getD j r0).salle) ∧
      (((sortRows1 l).getD i r0).salle = ((sortRows1 l).getD j r0).salle →
        ((sortRows1 l).getD i r0).date ≠ ((sortRows1 l).getD j r0).date →
        ((sortRows1 l).getD i r0).date < ((sortRows1 l).getD j r0).date) ∧
      (((sortRows1 l).getD i r0).salle = ((sortRows1 l).getD j r0).salle →
        ((sortRows1 l).getD i r0).date = ((sortRows1 l).getD j r0).date →
        ((sortRows1 l).getD i r0).heure ≤ ((sortRows1 l).getD j r0).heure))
  ∧ (∀ (l : List Row2) (r0 : Row2) (i j : Nat), i < j → j < (sortRows2 l).length →
      (((sortRows2 l).getD i r0).salle ≠ ((sortRows2 l).getD j r0).salle →
        ((sortRows2 l).getD i r0).salle < ((sortRows2 l).getD j r0).salle) ∧
      (((sortRows2 l).getD i r0).salle = ((sortRows2 l).getD j r0).salle →
        ((sortRows2 l).getD i r0).date ≠ ((sortRows2 l).getD j r0).date →
        ((sortRows2 l).getD i r0).date < ((sortRows2 l).getD j r0).date) ∧
      (((sortRows2 l).getD i r0).salle = ((sortRows2 l).getD j r0).salle →
        ((sortRows2 l).getD i r0).date = ((sortRows2 l).getD j r0).date →
        ((sortRows2 l).getD i r0).heure ≤ ((sortRows2 l).getD j r0).heure)) := by
  constructor
  · intro l r0 i j hij hj
    have hi : i < (sortRows1 l).length := hij.trans hj
    rw [List.getD_eq_get _ _ hi, List.getD_eq_get _ _ hj]
    have hrel := (sortRows1_sorted l).rel_get_of_lt
      (show (⟨i, hi⟩ : Fin (sortRows1 l).length) < ⟨j, hj⟩ from hij)
    rw [rowLE1_iff] at hrel
    refine ⟨?_, ?_, ?_⟩
    · intro hne
      rcases hrel with h | ⟨h, -⟩
      · exact h
      · exact absurd h hne
    · intro hs hdne
      rcases hrel with h | ⟨-, h'⟩
      · exact absurd hs (ne_of_lt h)
      · rcases h' with hd | ⟨hd, -⟩
        · exact hd
        · exact absurd hd hdne
    · intro hs hd
      rcases hrel with h | ⟨-, h'⟩
      · exact absurd hs (ne_of_lt h)
      · rcases h' with h2 | ⟨-, h3⟩
        · exact absurd hd (ne_of_lt h2)
        · exact h3
  · intro l r0 i j hij hj
    have hi : i < (sortRows2 l).length := hij.trans hj
    rw [List.getD_eq_get _ _ hi, List.getD_eq_get _ _ hj]
    have hrel := (sortRows2_sorted l).rel_get_of_lt
      (show (⟨i, hi⟩ : Fin (sortRows2 l).length) < ⟨j, hj⟩ from hij)
    rw [rowLE2_iff] at hrel
    refine ⟨?_, ?_, ?_⟩
    · intro hne
      rcases hrel with h | ⟨h, -⟩
      · exact h
      · exact absurd h hne
    · intro hs hdne
      rcases hrel with h | ⟨-, h'⟩
      · exact absurd hs (ne_of_lt h)
      · rcases h' with hd | ⟨hd, -⟩
        · exact hd
        · exact absurd hd hdne
    · intro hs hd
      rcases hrel with h | ⟨-, h'⟩
      · exact absurd hs (ne_of_lt h)
      · rcases h' with h2 | ⟨-, h3⟩
        · exact absurd hd (ne_of_lt h2)
        · exact h3

/-- C5, witness: the first variant's clause applied to a concrete
two-row list. -/
theorem report_sort_c5_witness :
    (((sortRows1 [c5RowA, c5RowB]).getD 0 c5RowA).salle ≠
        ((sortRows1 [c5RowA, c5RowB]).getD 1 c5RowA).salle →
      ((sortRows1 [c5RowA, c5RowB]).getD 0 c5RowA).salle <
        ((sortRows1 [c5RowA, c5RowB]).getD 1 c5RowA).salle) ∧
    (((sortRows1 [c5RowA, c5RowB]).getD 0 c5RowA).salle =
        ((sortRows1 [c5RowA, c5RowB]).getD 1 c5RowA).salle →
      ((sortRows1 [c5RowA, c5RowB]).getD 0 c5RowA).date ≠
        ((sortRows1 [c5RowA, c5RowB]).getD 1 c5RowA).date →
      ((sortRows1 [c5RowA, c5RowB]).getD 0 c5RowA).date <
        ((sortRows1 [c5RowA, c5RowB]).getD 1 c5RowA).date) ∧
    (((sortRows1 [c5RowA, c5RowB]).getD 0 c5RowA).salle =
        ((sortRows1 [c5RowA, c5RowB]).getD 1 c5RowA).salle →
      ((sortRows1 [c5RowA, c5RowB]).getD 0 c5RowA).date =
        ((sortRows1 [c5RowA, c5RowB]).getD 1 c5RowA).date →
      ((sortRows1 [c5RowA, c5RowB]).getD 0 c5RowA).heure ≤
        ((sortRows1 [c5RowA, c5RowB]).getD 1 c5RowA).heure) :=
  report_sort_c5.1 [c5RowA, c5RowB] c5RowA 0 1 (by decide) (by decide)

/-- C9: in the assembled row (both variants), the version field is the
version decoded from the label when that is non-empty, and otherwise the
version decoded from the key (`verFromLbl || verFromKey`). -/
theorem version_fallback_c9 :
    (∀ (film : Film) (day key label : String) (doc : RevealDoc),
      ((parseSeanceLabel label).version ≠ "" →
        (mkRow1 film day key label doc).version = (parseSeanceLabel label).version) ∧
      ((parseSeanceLabel label).version = "" →
        (mkRow1 film day key label doc).version = (parseSeanceKey key).version))
  ∧ (∀ (slug : String) (film : Film) (day key label : String) (doc : RevealDoc),
      ((parseSeanceLabel label).version ≠ "" →
        (mkRow2 slug film day key label doc).version = (parseSeanceLabel label).version) ∧
      ((parseSeanceLabel label).version = "" →
        (mkRow2 slug film day key label doc).version = (parseSeanceKey key).version)) := by
  constructor
  · intro film day key label doc
    constructor
    · intro h
      show jsOr (parseSeanceLabel label).version (parseSeanceKey key).version = _
      rw [jsOr, if_neg h]
    · intro h
      show jsOr (parseSeanceLabel label).version (parseSeanceKey key).version = _
      rw [jsOr, if_pos h]
  · intro slug film day key label doc
    constructor
    · intro h
      show jsOr (parseSeanceLabel label).version (parseSeanceKey key).version = _
      rw [jsOr, if_neg h]
    · intro h
      show jsOr (parseSeanceLabel label).version (parseSeanceKey key).version = _
      rw [jsOr, if_pos h]

/-- C9, witness: both branches of the fallback at concrete showtimes. -/
theorem version_fallback_c9_witness :
    (mkRow1 ⟨"67890", "Elio"⟩ "2025-08-25" "1724606400/VF/543210" "14h00 - VF"
      ⟨[], none⟩).version = (parseSeanceLabel "14h00 - VF").version ∧
    (mkRow1 ⟨"67890", "Elio"⟩ "2025-08-25" "1724606400/VF/543210" "14h00"
      ⟨[], none⟩).version = (parseSeanceKey "1724606400/VF/543210").version :=
  ⟨(version_fallback_c9.1 ⟨"67890", "Elio"⟩ "2025-08-25" "1724606400/VF/543210"
      "14h00 - VF" ⟨[], none⟩).1 (by decide),
   (version_fallback_c9.1 ⟨"67890", "Elio"⟩ "2025-08-25" "1724606400/VF/543210"
      "14h00" ⟨[], none⟩).2 (by decide)⟩

/-- C10: when a second-variant run collects zero rows, the report writer
returns without writing any output file (`saveCSV` bails out on an empty
row list; `none` models "nothing written"). -/
theorem empty_rows_no_write_c10 : ∀ (slug : String) (st : Stub),
    (main2 slug st).rows = [] → (main2 slug st).output = none := by
  intro slug st h
  unfold main2 at h ⊢
  cases h2 : (parseFilmsFromHTML st.seedDoc)[1]? with
  | none => rfl
  | some film =>
    rw [h2] at h
    have h' : sortRows2 (filmStep2 slug st film).2 = [] := h
    show saveCSV (sortRows2 (filmStep2 slug st film).2) = none
    rw [h']
    rfl

/-- C10, witness: a run over two films with empty day sets collects no
rows and writes nothing. -/
theorem empty_rows_no_write_c10_witness :
    (main2 "lefrancais" c10Stub).rows = [] ∧ (main2 "lefrancais" c10Stub).output = none :=
  ⟨by decide, empty_rows_no_write_c10 "lefrancais" c10Stub (by decide)⟩

/-- C4: a Seed stage yielding zero films aborts the run with exit code 1
and no output file in both variants (in the code this happens through the
`TypeError` on the `undefined` selected film, caught by the top-level
handler — the explicit length guard is dead code); whereas a run whose
selected film exists completes with exit 0 even when a day set or a
showtime set is empty — those branches are merely skipped. -/
theorem failure_semantics_c4 :
    (∀ st : Stub, parseFilmsFromHTML st.seedDoc = [] →
      (main1 st).exitCode = 1 ∧ (main1 st).output = none)
  ∧ (∀ (slug : String) (st : Stub), parseFilmsFromHTML st.seedDoc = [] →
      (main2 slug st).exitCode = 1 ∧ (main2 slug st).output = none)
  ∧ (∀ st : Stub, parseFilmsFromHTML st.seedDoc ≠ [] →
      (main1 st).exitCode = 0 ∧ (main1 st).output ≠ none)
  ∧ (∀ (slug : String) (st : Stub), 2 ≤ (parseFilmsFromHTML st.seedDoc).length →
      (main2 slug st).exitCode = 0)
  ∧ (∀ (st : Stub) (f : Film), (parseFilmsFromHTML st.seedDoc).head? = some f →
      st.days f.id = some [] →
      (main1 st).rows = [] ∧ (main1 st).exitCode = 0 ∧ (main1 st).output ≠ none)
  ∧ (∀ (st : Stub) (f : Film) (d : String),
      (parseFilmsFromHTML st.seedDoc).head? = some f →
      st.days f.id = some [d] → st.seances f.id d = some [] →
      (main1 st).rows = [] ∧ (main1 st).exitCode = 0 ∧ (main1 st).output ≠ none) := by
  refine ⟨?_, ?_, ?_, ?_, ?_, ?_⟩
  · intro st h
    have hh : (parseFilmsFromHTML st.seedDoc).head? = none := by rw [h]; rfl
    unfold main1
    rw [hh]
    exact ⟨rfl, rfl⟩
  · intro slug st h
    have hh : (parseFilmsFromHTML st.seedDoc)[1]? = none := by rw [h]; rfl
    unfold main2
    rw [hh]
    exact ⟨rfl, rfl⟩
  · intro st h
    obtain ⟨f, hf⟩ : ∃ f, (parseFilmsFromHTML st.seedDoc).head? = some f := by
      cases hcase : parseFilmsFromHTML st.seedDoc with
      | nil => exact absurd hcase h
      | cons a l => exact ⟨a, rfl⟩
    unfold main1
    rw [hf]
    exact ⟨rfl, by simp⟩
  · intro slug st h
    obtain ⟨f, hf⟩ : ∃ f, (parseFilmsFromHTML st.seedDoc)[1]? = some f := by
      have h1 : 1 < (parseFilmsFromHTML st.seedDoc).length := by omega
      exact ⟨_, List.getElem?_eq_getElem h1⟩
    unfold main2
    rw [hf]
  · intro st f hf hd
    have hrows : (filmStep1 st f).2 = [] := by
      unfold filmStep1
      rw [hd]
      rfl
    unfold main1
    rw [hf]
    refine ⟨?_, rfl, by simp⟩
    show sortRows1 (filmStep1 st f).2 = []
    rw [hrows]
    rfl
  · intro st f d hf hd hs
    have hday : (dayStep1 st f d).2 = [] := by
      unfold dayStep1
      rw [hs]
      rfl
    have hrows : (filmStep1 st f).2 = [] := by
      unfold filmStep1
      rw [hd]
      show ((([d].map fun x => (dayStep1 st f x).2)).flatten) = []
      rw [List.map_cons, List.map_nil, hday]
      rfl
    unfold main1
    rw [hf]
    refine ⟨?_, rfl, by simp⟩
    show sortRows1 (filmStep1 st f).2 = []
    rw [hrows]
    rfl

/-- C4, witness: the zero-films abort and the empty-day-set completion at
concrete stubs. -/
theorem failure_semantics_c4_witness :
    ((main1 c4StubNoFilms).exitCode = 1 ∧ (main1 c4StubNoFilms).output = none) ∧
    ((main2 "lefrancais" c4StubNoFilms).exitCode = 1 ∧
      (main2 "lefrancais" c4StubNoFilms).output = none) ∧
    ((main2 "lefrancais" c10Stub).exitCode = 0) ∧
    ((main1 c10Stub).rows = [] ∧ (main1 c10Stub).exitCode = 0 ∧ (main1 c10Stub).output ≠ none) :=
  ⟨failure_semantics_c4.1 c4StubNoFilms (by decide),
   failure_semantics_c4.2.1 "lefrancais" c4StubNoFilms (by decide),
   failure_semantics_c4.2.2.2.1 "lefrancais" c10Stub (by decide),
   failure_semantics_c4.2.2.2.2.1 c10Stub ⟨"1", "A"⟩ (by decide) (by decide)⟩

/-- C1 (amended): for every stub whose Seed markup holds exactly the one
option `67890`/`Elio`, whose Days response for it is `{"2025-08-25": 1}`,
whose Showtimes response for that day is
`{"1724606400/VF/543210": "14h00 - VF"}`, and whose Reveal response markup
is the image with src `/img/tags/sal_10.png`, the first variant's crawl
produces exactly one row — the claimed one except that the room label is
the code's French `"Salle 10"` — exits 0 and writes the corresponding
CSV. -/
theorem end_to_end_c1 : ∀ st : Stub,
    st.seedDoc = [⟨some "67890", "Elio"⟩] →
    st.days "67890" = some ["2025-08-25"] →
    st.seances "67890" "2025-08-25" = some [("1724606400/VF/543210", "14h00 - VF")] →
    st.reveal "67890" "2025-08-25" "543210" = c1RevealDoc →
    (main1 st).rows = [c1RowActual] ∧ (main1 st).exitCode = 0 ∧
    (main1 st).output = some (toCSV1 [c1RowActual]) := by
  intro st h1 h2 h3 h4
  have hfilms : (parseFilmsFromHTML st.seedDoc).head? = some c1Film := by
    rw [h1]
    rfl
  have hseance : seanceStep1 st c1Film "2025-08-25"
      ("1724606400/VF/543210", "14h00 - VF") = ([Act.sleep, Act.reqBook], c1RowActual) := by
    unfold seanceStep1
    rw [show st.reveal c1Film.id "2025-08-25"
        (parseSeanceKey ("1724606400/VF/543210", "14h00 - VF").1).seanceId =
        c1RevealDoc from h4]
    decide
  have hday : (dayStep1 st c1Film "2025-08-25").2 = [c1RowActual] := by
    unfold dayStep1
    rw [show st.seances c1Film.id "2025-08-25" =
        some [("1724606400/VF/543210", "14h00 - VF")] from h3]
    show [(seanceStep1 st c1Film "2025-08-25" ("1724606400/VF/543210", "14h00 - VF")).2] = _
    rw [hseance]
  have hfilm : (filmStep1 st c1Film).2 = [c1RowActual] := by
    unfold filmStep1
    rw [show st.days c1Film.id = some ["2025-08-25"] from h2]
    show ((["2025-08-25"].map fun d => (dayStep1 st c1Film d).2)).flatten = _
    rw [List.map_cons, List.map_nil, hday]
    rfl
  unfold main1
  rw [hfilms]
  have hsort : sortRows1 (filmStep1 st c1Film).2 = [c1RowActual] := by
    rw [hfilm]
    rfl
  refine ⟨hsort, rfl, ?_⟩
  show some (toCSV1 (sortRows1 (filmStep1 st c1Film).2)) = _
  rw [hsort]

/-- C1, counterexample to the claim as stated: on the canonical stub the
produced row list is not the claimed one (its room label is `"Salle 10"`,
not `"Room 10"`); moreover a stub whose reveal markup contains an image
with src `sal_10.png` but outside the `/img/tags/` path — still "an image
whose src embeds sal_10.png" — yields an empty room instead of `"10"`,
because the selector only matches the tag path. -/
theorem end_to_end_cex_c1 :
    (main1 c1Stub).rows ≠ [c1RowClaimed] ∧
    (main1 c1Stub).rows = [c1RowActual] ∧
    c1RowActual.salle_label = "Salle 10" ∧
    (main1 c1StubLoose).rows.map Row1.salle = [""] := by
  decide

/-- C1, witness: the amended theorem applied at the canonical stub. -/
theorem end_to_end_c1_witness :
    (main1 c1Stub).rows = [c1RowActual] ∧ (main1 c1Stub).exitCode = 0 ∧
    (main1 c1Stub).output = some (toCSV1 [c1RowActual]) :=
  end_to_end_c1 c1Stub rfl (by decide) (by decide) rfl

theorem goodTrace_append {a b : List Act} (ha : GoodTrace a) (hb : GoodTrace b) :
    GoodTrace (a ++ b) := by
  refine ⟨ha.1.append hb.1 ?_, ?_⟩
  · intro x hx y hy habs
    rw [hb.2 y (Option.mem_def.mp hy)] at habs
    exact Bool.noConfusion habs
  · cases a with
    | nil => exact hb.2
    | cons c r =>
      intro z hz
      injection hz with h
      exact h ▸ ha.2 c rfl

theorem goodTrace_flatten : ∀ {L : List (List Act)},
    (∀ x ∈ L, GoodTrace x) → GoodTrace L.flatten
  | [], _ => ⟨List.chain'_nil, fun z hz => by simp at hz⟩
  | x :: L, h => by
    rw [List.flatten_cons]
    exact goodTrace_append (h x (by simp))
      (goodTrace_flatten fun y hy => h y (by simp [hy]))

theorem goodTrace_sleepPair (r : Act) : GoodTrace [Act.sleep, r] := by
  refine ⟨List.chain'_cons.mpr ⟨fun _ => rfl, List.chain'_singleton r⟩, ?_⟩
  intro z hz
  injection hz with h
  subst h
  rfl

theorem goodTrace_dayStep1 (st : Stub) (f : Film) (d : String) :
    GoodTrace (dayStep1 st f d).1 := by
  show GoodTrace ([Act.sleep, Act.reqSeances] ++
    ((((st.seances f.id d).getD []).map fun kv => (seanceStep1 st f d kv).1)).flatten)
  refine goodTrace_append (goodTrace_sleepPair _) (goodTrace_flatten ?_)
  intro x hx
  rcases List.mem_map.mp hx with ⟨kv, -, rfl⟩
  exact goodTrace_sleepPair _

theorem goodTrace_filmStep1 (st : Stub) (f : Film) :
    GoodTrace (filmStep1 st f).1 := by
  show GoodTrace ([Act.sleep, Act.reqDays] ++
    (((st.days f.id).getD []).map fun d => (dayStep1 st f d).1).flatten)
  refine goodTrace_append (goodTrace_sleepPair _) (goodTrace_flatten ?_)
  intro x hx
  rcases List.mem_map.mp hx with ⟨d, -, rfl⟩
  exact goodTrace_dayStep1 st f d

theorem goodTrace_dayStep2 (slug : String) (st : Stub) (f : Film) (d : String) :
    GoodTrace (dayStep2 slug st f d).1 := by
  show GoodTrace ([Act.sleep, Act.reqSeances] ++
    ((((st.seances f.id d).getD []).map fun kv => (seanceStep2 slug st f d kv).1)).flatten)
  refine goodTrace_append (goodTrace_sleepPair _) (goodTrace_flatten ?_)
  intro x hx
  rcases List.mem_map.mp hx with ⟨kv, -, rfl⟩
  exact goodTrace_sleepPair _

theorem goodTrace_filmStep2 (slug : String) (st : Stub) (f : Film) :
    GoodTrace (filmStep2 slug st f).1 := by
  show GoodTrace ([Act.sleep, Act.reqDays] ++
    (((st.days f.id).getD []).map fun d => (dayStep2 slug st f d).1).flatten)
  refine goodTrace_append (goodTrace_sleepPair _) (goodTrace_flatten ?_)
  intro x hx
  rcases List.mem_map.mp hx with ⟨d, -, rfl⟩
  exact goodTrace_dayStep2 slug st f d

theorem goodTail_main1 (st : Stub) :
    (main1 st).trace.Chain' PacedRel ∧
    ∀ z, (main1 st).trace.head? = some z → isNonSeedReq z = false := by
  unfold main1
  cases hf : (parseFilmsFromHTML st.seedDoc).head? with
  | none =>
    refine ⟨List.chain'_cons.mpr ⟨fun h => Bool.noConfusion h, List.chain'_singleton _⟩, ?_⟩
    intro z hz
    injection hz with h
    subst h
    rfl
  | some f =>
    have hg := goodTrace_filmStep1 st f
    constructor
    · show List.Chain' PacedRel (Act.reqSeed :: (filmStep1 st f).1)
      rw [List.chain'_cons']
      refine ⟨?_, hg.1⟩
      intro b hb habs
      rw [hg.2 b (Option.mem_def.mp hb)] at habs
      exact Bool.noConfusion habs
    · intro z hz
      injection hz with h
      subst h
      rfl

theorem goodTail_main2 (slug : String) (st : Stub) :
    (main2 slug st).trace.Chain' PacedRel ∧
    ∀ z, (main2 slug st).trace.head? = some z → isNonSeedReq z = false := by
  unfold main2
  cases hf : (parseFilmsFromHTML st.seedDoc)[1]? with
  | none =>
    refine ⟨List.chain'_singleton _, ?_⟩
    intro z hz
    injection hz with h
    subst h
    rfl
  | some f =>
    have hg := goodTrace_filmStep2 slug st f
    constructor
    · show List.Chain' PacedRel (Act.reqSeed :: (filmStep2 slug st f).1)
      rw [List.chain'_cons']
      refine ⟨?_, hg.1⟩
      intro b hb habs
      rw [hg.2 b (Option.mem_def.mp hb)] at habs
      exact Bool.noConfusion habs
    · intro z hz
      injection hz with h
      subst h
      rfl

theorem goodTrace_index {t : List Act} (hc : t.Chain' PacedRel)
    (hh : ∀ z, t.head? = some z → isNonSeedReq z = false) :
    ∀ i, i < t.length → isNonSeedReq (t.getD i Act.sleep) = true →
      0 < i ∧ t.getD (i - 1) Act.sleep = Act.sleep := by
  intro i hi hreq
  cases i with
  | zero =>
    exfalso
    have h0 : t.head? = some (t.getD 0 Act.sleep) := by
      cases t with
      | nil => simp at hi
      | cons a r => rfl
    rw [hh _ h0] at hreq
    exact Bool.noConfusion hreq
  | succ k =>
    refine ⟨Nat.succ_pos k, ?_⟩
    have hk : k < t.length - 1 := by omega
    have hrel := List.chain'_iff_get.mp hc k hk
    have h1 : t.getD (k + 1) Act.sleep = t.get ⟨k + 1, hi⟩ := List.getD_eq_get _ _ hi
    have h2 : t.getD (k + 1 - 1) Act.sleep = t.get ⟨k, by omega⟩ :=
      List.getD_eq_get _ _ (by omega)
    rw [h2]
    rw [h1] at hreq
    exact hrel hreq

/-- C7 (amended): in every run of either variant, each Days, Showtimes and
Reveal request is immediately preceded by a pacing delay; the initial Seed
request is the first action of the trace and is not preceded by a delay
(see the counterexample for the claim as stated, which includes Seed). -/
theorem pacing_c7 :
    (∀ (st : Stub) (i : Nat), i < (main1 st).trace.length →
      isNonSeedReq ((main1 st).trace.getD i Act.sleep) = true →
      0 < i ∧ (main1 st).trace.getD (i - 1) Act.sleep = Act.sleep)
  ∧ (∀ (slug : String) (st : Stub) (i : Nat), i < (main2 slug st).trace.length →
      isNonSeedReq ((main2 slug st).trace.getD i Act.sleep) = true →
      0 < i ∧ (main2 slug st).trace.getD (i - 1) Act.sleep = Act.sleep) := by
  constructor
  · intro st
    exact goodTrace_index (goodTail_main1 st).1 (goodTail_main1 st).2
  · intro slug st
    exact goodTrace_index (goodTail_main2 slug st).1 (goodTail_main2 slug st).2

/-- C7, counterexample to the claim as stated: in the canonical stubbed
run the trace starts with the Seed request itself, a request action with
no preceding delay action. -/
theorem pacing_cex_c7 :
    ¬ PacedAll (main1 c1Stub).trace ∧
    (main1 c1Stub).trace.getD 0 Act.sleep = Act.reqSeed ∧
    isReq Act.reqSeed = true ∧
    (main1 c1Stub).trace =
      [Act.reqSeed, Act.sleep, Act.reqDays, Act.sleep, Act.reqSeances,
       Act.sleep, Act.reqBook] := by
  refine ⟨?_, by decide, by decide, by decide⟩
  intro h
  have h0 := h 0 (by decide) (by decide)
  exact absurd h0.1 (by decide)

/-- C7, witness: the Days request of the canonical stubbed run (position 2
of its trace) is immediately preceded by a delay. -/
theorem pacing_c7_witness :
    0 < 2 ∧ (main1 c1Stub).trace.getD (2 - 1) Act.sleep = Act.sleep :=
  pacing_c7.1 c1Stub 2 (by decide) (by decide)
